import Mathlib

/-!
# Verification of the `AIService` streaming core of zotero-ainote

This development gives a shallow embedding, in Lean 4, of the request
adapter, the streaming decoder and the completion orchestrator found in
`src/modules/aiService.ts` of the zotero-ainote repository, and proves
(or refutes) the specified properties of that code.

Strings of the JavaScript source are modelled as `List Char`; the
response buffer delivered by the transport is the cumulative text the
`XMLHttpRequest.onprogress` handler sees in `e.target.response`.
External JavaScript builtins (`JSON.parse`, `String.prototype.trim`,
`parseFloat`, ...) are modelled by explicit executable functions below.
-/

set_option maxHeartbeats 1000000

/-- Shorthand: the `List Char` contents of a string literal. -/
def cs (s : String) : List Char := s.data

/-- Whitespace set of JavaScript `String.prototype.trim` (the ASCII part,
which is all the source ever meets). -/
def jsWS (c : Char) : Bool :=
  c = ' ' || c = '\t' || c = '\n' || c = '\r' || c = '\x0b' || c = '\x0c'

/-- Model of JavaScript `String.prototype.trim`. -/
def jsTrim (s : List Char) : List Char :=
  ((s.dropWhile jsWS).reverse.dropWhile jsWS).reverse

/-- Prepend a character to the first part of a non-empty part list
(helper for the split functions). -/
def consHead (c : Char) : List (List Char) → List (List Char)
  | [] => [[c]]
  | l :: ls => (c :: l) :: ls

/-- Model of JavaScript `s.split(/\r?\n/)`: split on `"\n"` optionally
preceded by `"\r"`; a lone `'\r'` is not a separator. -/
def splitRN : List Char → List (List Char)
  | [] => [[]]
  | '\n' :: r => [] :: splitRN r
  | '\r' :: '\n' :: r => [] :: splitRN r
  | '\r' :: r => consHead '\r' (splitRN r)
  | c :: r => consHead c (splitRN r)

/-- Split on `'\n'` only (the behaviour of `splitRN` on CR-free text;
used by the proofs). -/
def splitLF : List Char → List (List Char)
  | [] => [[]]
  | c :: r => if c = '\n' then [] :: splitLF r else consHead c (splitLF r)

/-- Helper for `collapseLF`: copy characters, dropping a newline whose
predecessor was also a newline. -/
def collapseLFAux (prevNL : Bool) : List Char → List Char
  | [] => []
  | c :: r =>
    if c = '\n' then
      if prevNL then collapseLFAux true r else '\n' :: collapseLFAux true r
    else c :: collapseLFAux false r

/-- Model of JavaScript `s.replace(/\n+/g, "\n")`: collapse each maximal
run of newline characters to a single newline. -/
def collapseLF (s : List Char) : List Char := collapseLFAux false s

/-- Model of JavaScript `s.replace(pat, rep)` with a plain-string
pattern: replace the first occurrence only. -/
def replaceFirst (pat rep : List Char) : List Char → List Char
  | [] => if pat = [] then rep else []
  | c :: r =>
    if pat.isPrefixOf (c :: r) then rep ++ (c :: r).drop pat.length
    else c :: replaceFirst pat rep r

/-- Model of JavaScript `s.toLowerCase()` (ASCII range). -/
def toLowerL (s : List Char) : List Char := s.map Char.toLower

/-- Decimal digits of a natural number (model of JS number-to-string
for the `HTTP ${status}` template). -/
def natStr (n : Nat) : List Char := (Nat.repr n).data

/-- Model of JavaScript `s.includes(sub)` on `List Char`. -/
def isInfixL (pat : List Char) : List Char → Bool
  | [] => pat.isPrefixOf []
  | c :: r => pat.isPrefixOf (c :: r) || isInfixL pat r

example : splitRN (cs "a\r\nb\nc") = [cs "a", cs "b", cs "c"] := by decide
example : splitRN (cs "a\r\r\nb") = [cs "a\r", cs "b"] := by decide
example : splitRN (cs "") = [[]] := by decide
example : splitLF (cs "a\nb\n") = [cs "a", cs "b", []] := by decide
example : collapseLF (cs "a\n\n\nb\nc") = cs "a\nb\nc" := by decide
example : jsTrim (cs "  \x7bx\x7d \r\n") = cs "\x7bx\x7d" := by decide
example : replaceFirst (cs ":generateContent") (cs ":streamGenerateContent")
    (cs "u/m:generateContent?x") = cs "u/m:streamGenerateContent?x" := by decide

/-! ## A model of JavaScript JSON values and `JSON.parse`

`JSON.parse` is a host builtin; the executable recursive-descent parser
below models it (objects, arrays, strings with escapes, numbers as
exact rationals, booleans, null).  `undefined` results of optional
chaining are collapsed into `Json.null` — the source code only ever
distinguishes them through truthiness and `typeof x === "string"`,
which agree on `null` and `undefined`. -/

/-- Unnormalized rational number, as produced by the literal parsers
(`JSON.parse` numbers, `parseFloat`); the denominator is always a
positive power of ten.  Kept unnormalized so that all arithmetic on it
reduces inside the kernel. -/
structure JNum where
  num : Int
  den : Nat
deriving DecidableEq

/-- Zero test (JavaScript falsiness of a number; `-0` is also falsy). -/
def JNum.isZero (a : JNum) : Bool := a.num = 0

inductive Json where
  | null : Json
  | bool : Bool → Json
  | num : JNum → Json
  | str : List Char → Json
  | arr : List Json → Json
  | obj : List (List Char × Json) → Json

/-- JavaScript truthiness of a JSON value (`null`, `false`, `0`, `""`
are falsy; every object and array is truthy). -/
def jsTruthy : Json → Bool
  | .null => false
  | .bool b => b
  | .num q => !q.isZero
  | .str s => !(s = [])
  | .arr _ => true
  | .obj _ => true

/-- Model of `a || b` on JSON values. -/
def jsOr (a b : Json) : Json := if jsTruthy a then a else b

/-- Model of optional-chained property access `j?.k` (absent property,
or access on a non-object, yields `null` standing for `undefined`). -/
def Json.jGet (j : Json) (k : List Char) : Json :=
  match j with
  | .obj fields =>
    match fields.lookup k with
    | some v => v
    | none => .null
  | _ => .null

/-- Model of optional-chained index access `j?.[0]`. -/
def Json.jIdx (j : Json) (i : Nat) : Json :=
  match j with
  | .arr xs => (xs.getD i .null)
  | _ => .null

/-- Skip JSON whitespace. -/
def skipWS (s : List Char) : List Char :=
  s.dropWhile (fun c => c = ' ' || c = '\t' || c = '\n' || c = '\r')

/-- Parse a maximal run of decimal digits; returns their value, the
count of digits consumed, and the rest. -/
def pDigits : List Char → Nat → Nat → Nat × Nat × List Char
  | c :: r, acc, n =>
    if c.isDigit then pDigits r (acc * 10 + (c.toNat - 48)) (n + 1)
    else (acc, n, c :: r)
  | [], acc, n => (acc, n, [])

/-- Parse the four hex digits of a `\uXXXX` escape. -/
def pHex4 : List Char → Option (Nat × List Char)
  | a :: b :: c :: d :: r =>
    let hv : Char → Option Nat := fun ch =>
      if ch.isDigit then some (ch.toNat - 48)
      else if 'a' ≤ ch && ch ≤ 'f' then some (ch.toNat - 87)
      else if 'A' ≤ ch && ch ≤ 'F' then some (ch.toNat - 55)
      else none
    match hv a, hv b, hv c, hv d with
    | some x, some y, some z, some w => some (((x * 16 + y) * 16 + z) * 16 + w, r)
    | _, _, _, _ => none
  | _ => none

/-- Parse the body of a JSON string literal (after the opening quote). -/
def pStr : Nat → List Char → Option (List Char × List Char)
  | 0, _ => none
  | _ + 1, [] => none
  | fuel + 1, c :: r =>
    if c = '"' then some ([], r)
    else if c = '\\' then
      match r with
      | e :: r2 =>
        let esc : Option (Char × List Char) :=
          if e = '"' then some ('"', r2)
          else if e = '\\' then some ('\\', r2)
          else if e = '/' then some ('/', r2)
          else if e = 'b' then some ('\x08', r2)
          else if e = 'f' then some ('\x0c', r2)
          else if e = 'n' then some ('\n', r2)
          else if e = 'r' then some ('\r', r2)
          else if e = 't' then some ('\t', r2)
          else if e = 'u' then
            match pHex4 r2 with
            | some (n, r3) => some (Char.ofNat n, r3)
            | none => none
          else none
        match esc with
        | some (ch, r3) =>
          match pStr fuel r3 with
          | some (tail, rest) => some (ch :: tail, rest)
          | none => none
        | none => none
      | [] => none
    else
      match pStr fuel r with
      | some (tail, rest) => some (c :: tail, rest)
      | none => none

/-- Parse a JSON number (after an optional leading minus handled by the
caller): integer digits, optional fraction, optional exponent. -/
def pNum (s : List Char) : Option (JNum × List Char) :=
  let (ip, n, r) := pDigits s 0 0
  if n = 0 then none
  else
    let (mant, fd, r2) :=
      match r with
      | '.' :: rf =>
        let (fp, fn, rr) := pDigits rf 0 0
        if fn = 0 then (ip, 0, r) else (ip * 10 ^ fn + fp, fn, rr)
      | _ => (ip, 0, r)
    let base : JNum := ⟨(mant : Int), 10 ^ fd⟩
    match r2 with
    | e :: re =>
      if e = 'e' || e = 'E' then
        let (esign, rd) : Int × List Char :=
          match re with
          | '+' :: rr => (1, rr)
          | '-' :: rr => (-1, rr)
          | _ => (1, re)
        let (ev, en, rr) := pDigits rd 0 0
        if en = 0 then some (base, r2)
        else if esign = 1 then some (⟨base.num * 10 ^ ev, base.den⟩, rr)
        else some (⟨base.num, base.den * 10 ^ ev⟩, rr)
      else some (base, r2)
    | [] => some (base, [])

mutual

/-- Recursive-descent JSON value parser (fuelled). -/
def pVal : Nat → List Char → Option (Json × List Char)
  | 0, _ => none
  | fuel + 1, s =>
    match skipWS s with
    | [] => none
    | c :: r =>
      if c = '{' then
        match skipWS r with
        | '}' :: r2 => some (.obj [], r2)
        | r2 => pMembers fuel r2 []
      else if c = '[' then
        match skipWS r with
        | ']' :: r2 => some (.arr [], r2)
        | r2 => pElems fuel r2 []
      else if c = '"' then
        match pStr (r.length + 1) r with
        | some (str, rest) => some (.str str, rest)
        | none => none
      else if c = 't' then
        if (cs "rue").isPrefixOf r then some (.bool true, r.drop 3) else none
      else if c = 'f' then
        if (cs "alse").isPrefixOf r then some (.bool false, r.drop 4) else none
      else if c = 'n' then
        if (cs "ull").isPrefixOf r then some (.null, r.drop 3) else none
      else if c = '-' then
        match pNum r with
        | some (q, rest) => some (.num ⟨-q.num, q.den⟩, rest)
        | none => none
      else
        match pNum (c :: r) with
        | some (q, rest) => some (.num q, rest)
        | none => none

/-- Parse object members, the opening brace and any leading whitespace
already consumed. -/
def pMembers : Nat → List Char → List (List Char × Json) →
    Option (Json × List Char)
  | 0, _, _ => none
  | fuel + 1, s, acc =>
    match skipWS s with
    | '"' :: r =>
      match pStr (r.length + 1) r with
      | some (key, r2) =>
        match skipWS r2 with
        | ':' :: r3 =>
          match pVal fuel r3 with
          | some (v, r4) =>
            match skipWS r4 with
            | ',' :: r5 => pMembers fuel r5 (acc ++ [(key, v)])
            | '}' :: r5 => some (.obj (acc ++ [(key, v)]), r5)
            | _ => none
          | none => none
        | _ => none
      | none => none
    | _ => none

/-- Parse array elements, the opening bracket and any leading
whitespace already consumed. -/
def pElems : Nat → List Char → List Json → Option (Json × List Char)
  | 0, _, _ => none
  | fuel + 1, s, acc =>
    match pVal fuel s with
    | some (v, r) =>
      match skipWS r with
      | ',' :: r2 => pElems fuel r2 (acc ++ [v])
      | ']' :: r2 => some (.arr (acc ++ [v]), r2)
      | _ => none
    | none => none

end

/-- Model of `JSON.parse`: parse one value and require only whitespace
after it; `none` models a thrown `SyntaxError`. -/
def parseJson (s : List Char) : Option Json :=
  match pVal (2 * s.length + 2) s with
  | some (j, rest) => if skipWS rest = [] then some j else none
  | none => none

example : parseJson (cs "[DONE]") = none := by rfl
example : parseJson (cs "-1.5e2") = some (.num ⟨-1500, 10⟩) := by rfl
example : parseJson (cs "") = none := by rfl

/-! ## Provider registry and per-provider delta extraction
(`AIService.detectProvider`, `AIService.parseStreamDelta`). -/

inductive ProviderType where
  | openai | deepseek | azure | gemini | claude | custom
deriving DecidableEq

/-- `AIService.detectProvider`: case-insensitive substring match on the
configured URL, first match wins, default `custom`. -/
def detectProvider (apiUrl : List Char) : ProviderType :=
  let url := toLowerL apiUrl
  if isInfixL (cs "api.openai.com") url then .openai
  else if isInfixL (cs "api.deepseek.com") url then .deepseek
  else if isInfixL (cs "openai.azure.com") url then .azure
  else if isInfixL (cs "generativelanguage.googleapis.com") url then .gemini
  else if isInfixL (cs "api.anthropic.com") url then .claude
  else .custom

/-- `AIService.parseStreamDelta`: the JavaScript value of the
per-provider optional-chain / `||` expression. -/
def parseStreamDelta (json : Json) (p : ProviderType) : Json :=
  match p with
  | .gemini =>
    jsOr ((((((json.jGet (cs "candidates")).jIdx 0).jGet (cs "content")).jGet
      (cs "parts")).jIdx 0).jGet (cs "text")) .null
  | .claude =>
    jsOr ((json.jGet (cs "delta")).jGet (cs "text")) .null
  | _ =>
    jsOr (jsOr ((((json.jGet (cs "choices")).jIdx 0).jGet (cs "delta")).jGet
      (cs "content")) ((json.jGet (cs "message")).jGet (cs "content"))) .null

/-- The guard `typeof delta === "string" && delta.length > 0` applied to
the value of `parseStreamDelta`. -/
def extractedDelta (json : Json) (p : ProviderType) : Option (List Char) :=
  match parseStreamDelta json p with
  | .str s => if s.length > 0 then some s else none
  | _ => none

example : extractedDelta
    (Json.obj [(cs "choices", .arr [.obj [(cs "delta",
      .obj [(cs "content", .str (cs "Hi"))])]])]) .openai = some (cs "Hi") := by
  rfl
example : extractedDelta (Json.obj [(cs "message",
    .obj [(cs "content", .str (cs "N"))])]) .custom = some (cs "N") := by rfl
example : extractedDelta (Json.obj [(cs "delta",
    .obj [(cs "text", .str (cs "C"))])]) .claude = some (cs "C") := by rfl

/-! ## The streaming decoder
(the `onprogress` handler of `AIService.generateSummary`, lines 149–326).

The call-scoped mutable variables of the streaming branch
(`chunks`, `delivered`, `processedLength`, `partialLine`,
`streamComplete`, `abortedDueToError`, `errorFromProgress`,
`gotAnyDelta`) become the fields of `SseState`; in addition the state
records, as `increments`, the list of strings passed to the
`onProgress` sink, in order, which is what the claims speak about. -/

structure SseState where
  chunks : List (List Char)
  delivered : Nat
  gotAnyDelta : Bool
  processedLength : Nat
  partialLine : List Char
  streamComplete : Bool
  abortedDueToError : Bool
  errorFromProgress : Option (List Char)
  increments : List (List Char)
deriving DecidableEq

/-- The decoder state at the start of a `generateSummary` call. -/
def initState : SseState :=
  { chunks := [], delivered := 0, gotAnyDelta := false, processedLength := 0,
    partialLine := [], streamComplete := false, abortedDueToError := false,
    errorFromProgress := none, increments := [] }

/-- The accumulated text, i.e. the concatenation of all chunks (the JS chunks.join("")). -/
def accText (st : SseState) : List Char := st.chunks.flatten

/-- Lines 221–234 (Gemini branch): push a non-empty delta verbatim and
deliver the new suffix beyond `delivered` to the sink. -/
def pushDeltaGem (st : SseState) (delta : List Char) : SseState :=
  let st1 := { st with gotAnyDelta := true, chunks := st.chunks ++ [delta] }
  let current := st1.chunks.flatten
  if current.length > st1.delivered then
    { st1 with increments := st1.increments ++ [current.drop st1.delivered],
               delivered := current.length }
  else st1

/-- Lines 300–310 (SSE branch): push a non-empty delta with newline
runs collapsed (`delta.replace(/\n+/g, "\n")`) and deliver the new
suffix beyond `delivered` to the sink. -/
def pushDeltaSSE (st : SseState) (delta : List Char) : SseState :=
  let st1 := { st with gotAnyDelta := true,
                       chunks := st.chunks ++ [collapseLF delta] }
  let current := st1.chunks.flatten
  if current.length > st1.delivered then
    { st1 with increments := st1.increments ++ [current.drop st1.delivered],
               delivered := current.length }
  else st1

/-- Lines 294–314: `if (!jsonStr) continue; try { parse; extract; push }`. -/
def procJsonStr (p : ProviderType) (st : SseState) (jsonStr : List Char) :
    SseState :=
  if jsonStr = [] then st
  else
    match parseJson jsonStr with
    | none => st
    | some json =>
      match extractedDelta json p with
      | some delta => pushDeltaSSE st delta
      | none => st

/-- Lines 276–315: the `for (const raw of parts)` loop.  The literal
`[DONE]` sets `streamComplete` and *returns from the handler*, so the
remaining parts of this invocation are discarded. -/
def procParts (p : ProviderType) (st : SseState) :
    List (List Char) → SseState
  | [] => st
  | raw :: rest =>
    if (cs "data: ").isPrefixOf raw then
      let jsonStr := jsTrim (raw.drop 6)
      if jsonStr = cs "[DONE]" then { st with streamComplete := true }
      else procParts p (procJsonStr p st jsonStr) rest
    else if (cs "\x7b").isPrefixOf (jsTrim raw) then
      procParts p (procJsonStr p st (jsTrim raw)) rest
    else procParts p st rest

/-- Lines 257–316 (non-Gemini providers): SSE / NDJSON line decoding of
one progress snapshot `resp`, to be entered only when
`resp.length > st.processedLength`. -/
def sseStep (p : ProviderType) (st : SseState) (resp : List Char) : SseState :=
  let slice := st.partialLine ++ resp.drop st.processedLength
  let parts := splitRN slice
  let lastChar := slice.getLast?
  if lastChar ≠ some '\n' ∧ lastChar ≠ some '\r' then
    procParts p
      { st with processedLength := resp.length,
                partialLine := (parts.getLast?).getD [] }
      parts.dropLast
  else
    let parts2 := if parts.getLast? = some [] then parts.dropLast else parts
    procParts p
      { st with processedLength := resp.length, partialLine := [] } parts2

/-- Lines 196–256 (Gemini): the character scan over `resp` from index
`processedLength`, carried out on the remaining character list `rest`
(with `i` the index of its head).  `objAcc = some acc` corresponds to
`objectStart ≠ -1` with `acc` the characters seen since `objectStart`. -/
def gemLoop (st : SseState) : List Char → Nat → Option (List Char) →
    Nat → Bool → Bool → SseState
  | [], _, _, _, _, _ => st
  | c :: rest, i, none, _, _, _ =>
    if c = '{' then gemLoop st rest (i + 1) (some ['{']) 1 false false
    else gemLoop st rest (i + 1) none 0 false false
  | c :: rest, i, some acc, braceCount, inString, escape =>
    if inString then
      if escape then gemLoop st rest (i + 1) (some (acc ++ [c])) braceCount true false
      else if c = '\\' then
        gemLoop st rest (i + 1) (some (acc ++ [c])) braceCount true true
      else if c = '"' then
        gemLoop st rest (i + 1) (some (acc ++ [c])) braceCount false false
      else gemLoop st rest (i + 1) (some (acc ++ [c])) braceCount true false
    else if c = '"' then
      gemLoop st rest (i + 1) (some (acc ++ [c])) braceCount true false
    else if c = '{' then
      gemLoop st rest (i + 1) (some (acc ++ [c])) (braceCount + 1) false false
    else if c = '}' then
      if braceCount = 1 then
        match parseJson (acc ++ [c]) with
        | some json =>
          let st1 :=
            match extractedDelta json .gemini with
            | some delta => pushDeltaGem st delta
            | none => st
          gemLoop { st1 with processedLength := i + 1 } rest (i + 1) none 0
            false false
        | none => gemLoop st rest (i + 1) none 0 false false
      else gemLoop st rest (i + 1) (some (acc ++ [c])) (braceCount - 1) false false
    else gemLoop st rest (i + 1) (some (acc ++ [c])) braceCount false false

/-- One Gemini progress snapshot, to be entered only when
`resp.length > st.processedLength`. -/
def gemStep (st : SseState) (resp : List Char) : SseState :=
  gemLoop st (resp.drop st.processedLength) st.processedLength none 0 false false

/-- A progress notification: the HTTP status and the cumulative
response text seen by `e.target`. -/
structure Event where
  status : Nat
  resp : List Char
deriving DecidableEq

/-- Lines 153–178: the error branch of the handler.  `parsed?.error ||
parsed`, `err?.code || bottom`, `err?.message || bottom`, formatted as
the template `${code}: ${msg}`; an unparsable body falls to the generic
`HTTP ${status}: 请求失败` message. -/
def jsToStr : Json → List Char
  | .str s => s
  | .num q =>
    -- model of JS number stringification, exact for integers (the only
    -- values any statement below exercises)
    if q.den = 1 then (if q.num < 0 then '-' :: natStr q.num.natAbs
                       else natStr q.num.natAbs)
    else (if q.num < 0 then '-' :: natStr q.num.natAbs
          else natStr q.num.natAbs) ++ '/' :: natStr q.den
  | .bool true => cs "true"
  | .bool false => cs "false"
  | .null => cs "null"
  | .arr _ => cs "[object]"
  | .obj _ => cs "[object Object]"

/-- The message built from a parsed or unparsable error body at an
HTTP-error progress event (lines 154–176). -/
def progressErrorMsg (status : Nat) (resp : List Char) : List Char :=
  match parseJson resp with
  | some parsed =>
    let err := jsOr (parsed.jGet (cs "error")) parsed
    let code := if jsTruthy (err.jGet (cs "code")) then jsToStr (err.jGet (cs "code"))
                else cs "HTTP " ++ natStr status
    let msg := if jsTruthy (err.jGet (cs "message")) then jsToStr (err.jGet (cs "message"))
               else cs "请求失败"
    code ++ cs ": " ++ msg
  | none => cs "HTTP " ++ natStr status ++ cs ": 请求失败"

/-- The whole `onprogress` handler for one event (lines 149–326). -/
def progressStep (p : ProviderType) (st : SseState) (ev : Event) : SseState :=
  if 400 ≤ ev.status then
    if ev.resp ≠ [] then
      { st with abortedDueToError := true,
                errorFromProgress := some (progressErrorMsg ev.status ev.resp) }
    else st
  else if ev.resp.length > st.processedLength then
    if p = .gemini then gemStep st ev.resp else sseStep p st ev.resp
  else st

/-- Run the decoder over the progress events of one exchange.  After the
handler calls `xmlhttp.abort()` the transport delivers no further
progress events, hence the stop on `abortedDueToError`. -/
def runEvents (p : ProviderType) (st : SseState) : List Event → SseState
  | [] => st
  | ev :: rest =>
    let st1 := progressStep p st ev
    if st1.abortedDueToError then st1 else runEvents p st1 rest

/-! ## Messages, payloads and the request adapter
(`AIService.buildMessages`, `AIService.adaptRequest`). -/

/-- JavaScript number: finite value or a signed infinity (`parseFloat`
can produce `Infinity`); `NaN` is modelled by `Option` at the parser. -/
inductive JsNumV where
  | fin (q : JNum)
  | inf (neg : Bool)
deriving DecidableEq

/-- JavaScript truthiness of a number (`0`, `-0` and `NaN` are falsy;
infinities are truthy). -/
def JsNumV.truthy : JsNumV → Bool
  | .fin q => !q.isZero
  | .inf _ => true

/-- Model of the JavaScript builtin `parseFloat`: skip leading
whitespace, optional sign, `Infinity`, or digits with optional decimal
point and optional exponent; trailing garbage is ignored; `none` models
`NaN`. -/
def parseFloat (s : List Char) : Option JsNumV :=
  let s1 := s.dropWhile jsWS
  let (neg, s2) :=
    match s1 with
    | '-' :: r => (true, r)
    | '+' :: r => (false, r)
    | _ => (false, s1)
  if (cs "Infinity").isPrefixOf s2 then some (.inf neg)
  else
    let (ip, ni, r) := pDigits s2 0 0
    let (mant, nf, fd, r2) :=
      match r with
      | '.' :: rf =>
        let (fp, fn, rr) := pDigits rf 0 0
        (ip * 10 ^ fn + fp, fn, fn, rr)
      | _ => (ip, 0, 0, r)
    if ni = 0 && nf = 0 then none
    else
      let signedMant : Int := if neg then -(mant : Int) else (mant : Int)
      let base : JNum := ⟨signedMant, 10 ^ fd⟩
      match r2 with
      | e :: re =>
        if e = 'e' || e = 'E' then
          let (esign, rd) : Bool × List Char :=
            match re with
            | '+' :: rr => (false, rr)
            | '-' :: rr => (true, rr)
            | _ => (false, re)
          let (ev, en, _) := pDigits rd 0 0
          if en = 0 then some (.fin base)
          else if esign then some (.fin ⟨base.num, base.den * 10 ^ ev⟩)
          else some (.fin ⟨base.num * 10 ^ ev, base.den⟩)
        else some (.fin base)
      | [] => some (.fin base)

example : parseFloat (cs "0.7") = some (.fin ⟨7, 10⟩) := by rfl
example : parseFloat (cs "0") = some (.fin ⟨0, 1⟩) := by rfl
example : parseFloat (cs "abc") = none := by rfl
example : parseFloat (cs " -1.5e1x") = some (.fin ⟨-150, 10⟩) := by rfl
example : parseFloat (cs ".5") = some (.fin ⟨5, 10⟩) := by rfl

/-- A chat message: the OpenAI shape `{role, content}` or the Gemini
shape `{role, parts: [{text}]}` built by `buildMessages`. -/
inductive Msg where
  | std (role content : List Char)
  | gparts (role text : List Char)
deriving DecidableEq

def Msg.role : Msg → List Char
  | .std r _ => r
  | .gparts r _ => r

/-- `m.content` (on a Gemini-shaped message this is `undefined` in JS;
that case is unreachable in the source since Gemini messages never meet
the Claude adapter). -/
def Msg.content : Msg → List Char
  | .std _ c => c
  | .gparts _ _ => []

/-- `SYSTEM_ROLE_PROMPT` of `src/utils/prompts.ts`. -/
def sysRolePrompt : List Char := cs "You are a helpful academic assistant."

/-- `buildUserMessage` of `src/utils/prompts.ts`. -/
def buildUserMessage (prompt text : List Char) : List Char :=
  prompt ++ cs "\n\n请用中文回答。\n\n<Paper>\n" ++ text ++ cs "\n</Paper>"

/-- `AIService.buildMessages`. -/
def buildMessages (prompt text : List Char) (p : ProviderType) : List Msg :=
  let userMessage := buildUserMessage prompt text
  if p = .gemini then
    [.gparts (cs "user") (sysRolePrompt ++ cs "\n\n" ++ userMessage)]
  else if p = .claude then
    [.std (cs "user") userMessage]
  else
    [.std (cs "system") sysRolePrompt, .std (cs "user") userMessage]

/-- `generationConfig` of the Gemini payload. -/
structure GenCfg where
  temperature : Option JsNumV
  maxOutputTokens : Nat
deriving DecidableEq

/-- The JSON request body as assembled by the source (a field is `none`
when the corresponding key is absent from the object). -/
structure Payload where
  model : Option (List Char) := none
  messages : Option (List Msg) := none
  temperature : Option JsNumV := none
  stream : Option Bool := none
  contents : Option (List Msg) := none
  generationConfig : Option GenCfg := none
  system : Option (List Char) := none
  max_tokens : Option Nat := none
deriving DecidableEq

/-- `x || d` for an optional string (JS: `undefined` and `""` are
falsy). -/
def jsOrL (x : Option (List Char)) (d : List Char) : List Char :=
  match x with
  | some s => if s = [] then d else s
  | none => d

/-- The adapted request `{url, headers, payload}`. -/
structure AdaptedRequest where
  url : List Char
  headers : List (List Char × List Char)
  payload : Payload
deriving DecidableEq

/-- `s.endsWith('/')`. -/
def endsWithSlash (s : List Char) : Bool := s.getLast? = some '/'

/-- `AIService.adaptRequest` (lines 427–584). -/
def adaptRequest (apiUrl apiKey : List Char) (basePayload : Payload)
    (providerType : ProviderType) (isStreaming : Bool) : AdaptedRequest :=
  let headers0 : List (List Char × List Char) :=
    [(cs "Content-Type", cs "application/json")]
  match providerType with
  | .gemini =>
    let model := jsOrL basePayload.model (cs "gemini-pro")
    let baseUrl := if endsWithSlash apiUrl then apiUrl.dropLast else apiUrl
    let url :=
      if isInfixL (cs ":generateContent") baseUrl ||
         isInfixL (cs ":streamGenerateContent") baseUrl then
        if isStreaming && isInfixL (cs ":generateContent") baseUrl &&
           !isInfixL (cs ":streamGenerateContent") baseUrl then
          replaceFirst (cs ":generateContent") (cs ":streamGenerateContent") baseUrl
        else if !isStreaming && isInfixL (cs ":streamGenerateContent") baseUrl then
          replaceFirst (cs ":streamGenerateContent") (cs ":generateContent") baseUrl
        else baseUrl
      else
        let baseUrl2 :=
          if !isInfixL (cs "/models") baseUrl then
            if (cs "/v1beta").isSuffixOf baseUrl then baseUrl ++ cs "/models"
            else baseUrl ++ cs "/v1beta/models"
          else baseUrl
        let endp := if isStreaming then cs "streamGenerateContent"
                    else cs "generateContent"
        baseUrl2 ++ cs "/" ++ model ++ cs ":" ++ endp
    let url2 := if apiKey ≠ [] then url ++ cs "?key=" ++ apiKey else url
    { url := url2, headers := headers0,
      payload := { contents := basePayload.messages,
                   generationConfig :=
                     some ⟨basePayload.temperature, 8192⟩ } }
  | .azure =>
    let deployment := jsOrL basePayload.model (cs "gpt-35-turbo")
    let baseUrl := if endsWithSlash apiUrl then apiUrl.dropLast else apiUrl
    let url :=
      if isInfixL (cs "/chat/completions") baseUrl then baseUrl
      else if isInfixL (cs "/deployments/") baseUrl then
        if isInfixL (cs "?api-version=") baseUrl then
          replaceFirst (cs "?api-version=") (cs "/chat/completions?api-version=")
            baseUrl
        else baseUrl ++ cs "/chat/completions?api-version=2023-05-15"
      else
        let baseUrl2 :=
          if !isInfixL (cs "/openai/deployments") baseUrl then
            baseUrl ++ cs "/openai/deployments"
          else baseUrl
        baseUrl2 ++ cs "/" ++ deployment ++ cs "/chat/completions?api-version=2023-05-15"
    { url := url, headers := headers0 ++ [(cs "api-key", apiKey)],
      payload := basePayload }
  | .claude =>
    let headers := headers0 ++ [(cs "x-api-key", apiKey),
                                (cs "anthropic-version", cs "2023-06-01")]
    let url :=
      if !isInfixL (cs "/v1/messages") apiUrl then
        if endsWithSlash apiUrl then apiUrl ++ cs "v1/messages"
        else apiUrl ++ cs "/v1/messages"
      else apiUrl
    let msgs := basePayload.messages.getD []
    let payload1 :=
      match msgs.find? (fun m => m.role = cs "system") with
      | some sm =>
        { basePayload with system := some sm.content,
                           messages := some (msgs.filter (fun m => !(m.role = cs "system"))) }
      | none => basePayload
    let payload2 :=
      match payload1.max_tokens with
      | some n => if n = 0 then { payload1 with max_tokens := some 4096 } else payload1
      | none => { payload1 with max_tokens := some 4096 }
    { url := url, headers := headers, payload := payload2 }
  | p =>
    let headers := if apiKey ≠ [] then
        headers0 ++ [(cs "Authorization", cs "Bearer " ++ apiKey)]
      else headers0
    let url :=
      if p = .openai && !isInfixL (cs "/chat/completions") apiUrl then
        if endsWithSlash apiUrl then apiUrl ++ cs "v1/chat/completions"
        else apiUrl ++ cs "/v1/chat/completions"
      else if p = .deepseek && !isInfixL (cs "/chat/completions") apiUrl then
        if endsWithSlash apiUrl then apiUrl ++ cs "chat/completions"
        else apiUrl ++ cs "/chat/completions"
      else apiUrl
    { url := url, headers := headers, payload := basePayload }

/-! ## Error classification and the completion orchestrator
(`AIService.generateSummary`, `AIService.nonStreamCompletion`). -/

/-- The observable shape of a rejected `Zotero.HTTP.request` error
object: `error?.xmlhttp?.response / responseText` merged into one
optional string, `error?.message`, `error?.xmlhttp?.statusText`, and
the `String(error)` rendering. -/
structure TransportError where
  responseText : Option (List Char)
  message : Option (List Char)
  statusText : Option (List Char)
  asString : List Char
deriving DecidableEq

/-- The `catch` classification of lines 361–375 (and, up to the
`typeof responseText` check, lines 668–681): parse the error body for
`error.code`/`error.message`, with the documented fallbacks. -/
def classifyCatch (e : TransportError) : List Char :=
  match e.responseText with
  | some rt =>
    if rt ≠ [] then
      match parseJson rt with
      | some parsed =>
        let err := jsOr (parsed.jGet (cs "error")) parsed
        let code := if jsTruthy (err.jGet (cs "code")) then
            jsToStr (err.jGet (cs "code"))
          else cs "Error"
        let msg := if jsTruthy (err.jGet (cs "message")) then
            jsToStr (err.jGet (cs "message"))
          else jsOrL e.message e.asString
        code ++ cs ": " ++ msg
      | none => jsOrL e.message (jsOrL e.statusText e.asString)
    else jsOrL e.message e.asString
  | none => jsOrL e.message e.asString

/-- The error object produced by `xmlhttp.abort()` as seen by the outer
catch (its shape is irrelevant: when the decoder aborted, the catch
always rethrows `errorFromProgress` first). -/
def abortError : TransportError := ⟨none, none, none, cs "AbortError"⟩

/-- Placeholder rendering of `JSON.stringify` for the non-string case
of `typeof text === "string" ? text : JSON.stringify(text)`; exact only
for primitives, and exercised by no statement below (every claim pins a
string completion). -/
def jsonStringify : Json → List Char
  | .null => cs "null"
  | .bool true => cs "true"
  | .bool false => cs "false"
  | .num q => jsToStr (.num q)
  | .str s => '"' :: s ++ ['"']
  | .arr _ => cs "[…]"
  | .obj _ => cs "\x7b…\x7d"

/-- Lines 636–653: extract the completion text of a non-streaming
response body per provider. -/
def nonStreamExtract (p : ProviderType) (data : Json) : List Char :=
  let text : Json :=
    match p with
    | .gemini =>
      jsOr ((((((data.jGet (cs "candidates")).jIdx 0).jGet (cs "content")).jGet
        (cs "parts")).jIdx 0).jGet (cs "text")) (.str [])
    | .claude =>
      jsOr (((data.jGet (cs "content")).jIdx 0).jGet (cs "text")) (.str [])
    | _ =>
      jsOr (jsOr ((((data.jGet (cs "choices")).jIdx 0).jGet (cs "message")).jGet
        (cs "content")) ((data.jGet (cs "message")).jGet (cs "content"))) (.str [])
  match text with
  | .str s => s
  | j => jsonStringify j

/-- One run of `AIService.nonStreamCompletion`: the adapted request it
sends, its result, and the single increment it mirrors to the sink. -/
structure NonStreamRun where
  request : AdaptedRequest
  result : Except (List Char) (List Char)
  deliveredIncrement : Option (List Char)

/-- `AIService.nonStreamCompletion` (lines 616–686), with the network
exchange's outcome supplied as `outcome`. -/
def nonStreamCompletion (apiUrl apiKey : List Char) (basePayload : Payload)
    (providerType : ProviderType) (outcome : Except TransportError Json)
    (onProgress : Bool) : NonStreamRun :=
  let req := adaptRequest apiUrl apiKey basePayload providerType false
  match outcome with
  | .ok data =>
    let result := nonStreamExtract providerType data
    { request := req, result := .ok result,
      deliveredIncrement := if onProgress && result ≠ [] then some result else none }
  | .error e =>
    { request := req, result := .error (classifyCatch e), deliveredIncrement := none }

/-- The preference store as read by lines 79–89 (`none` models an
unset preference, i.e. `getPref` returning `undefined`). -/
structure Prefs where
  apiKey : Option (List Char)
  apiUrl : Option (List Char)
  model : Option (List Char)
  temperature : Option (List Char)
  summaryPrompt : Option (List Char)
  stream : Option Bool

/-- The external world of one `generateSummary` call: the progress
events the transport delivers, whether (and with what error object) the
streaming `Zotero.HTTP.request` promise rejects, and the outcome of a
non-streaming exchange should one be issued. -/
structure Env where
  events : List Event
  streamReject : Option TransportError
  nonStreamOutcome : Except TransportError Json

/-- Every observable of one `generateSummary` call. -/
structure GSRun where
  result : Except (List Char) (List Char)
  didAdapt : Bool
  basePayload : Option Payload
  streamRequest : Option AdaptedRequest
  streamState : Option SseState
  fellBack : Bool
  nonStreamRun : Option NonStreamRun

/-- The defaulted temperature of lines 83–84:
`parseFloat(temperatureStr) || 0.7`. -/
def resolvedTemperature (tempPref : Option (List Char)) : JsNumV :=
  let temperatureStr := jsOrL tempPref (cs "0.7")
  match parseFloat temperatureStr with
  | some v => if v.truthy then v else .fin ⟨7, 10⟩
  | none => .fin ⟨7, 10⟩

/-- Default summary prompt (`DEFAULT_SUMMARY_PROMPT` of
`src/utils/prompts.ts`; abridged — no statement below inspects the
prompt text). -/
def defaultSummaryPrompt : List Char :=
  cs "# 角色\n你是一名专业的学术研究助理，擅长将复杂的学术论文提炼为清晰、结构化的摘要。"

/-- `AIService.generateSummary` (lines 73–392): configuration
resolution, validation, adaptation, and the streaming / non-streaming /
fallback paths, with the network modelled by `env`. -/
def generateSummary (prefs : Prefs) (fullText : List Char)
    (promptArg : Option (List Char)) (onProgress : Bool) (env : Env) : GSRun :=
  let apiKey := jsTrim (jsOrL prefs.apiKey [])
  let apiUrl := jsTrim (jsOrL prefs.apiUrl [])
  let model := jsTrim (jsOrL prefs.model (cs "gpt-3.5-turbo"))
  let temperature := resolvedTemperature prefs.temperature
  let summaryPrompt :=
    jsOrL promptArg
      (match prefs.summaryPrompt with
       | some sp => if jsTrim sp ≠ [] then sp else defaultSummaryPrompt
       | none => defaultSummaryPrompt)
  let streamEnabled := prefs.stream.getD true
  let providerType := detectProvider apiUrl
  if apiUrl = [] then
    { result := .error (cs "API URL 未配置"), didAdapt := false,
      basePayload := none, streamRequest := none, streamState := none,
      fellBack := false, nonStreamRun := none }
  else if apiKey = [] ∧ providerType ≠ .gemini then
    { result := .error (cs "API Key 未配置"), didAdapt := false,
      basePayload := none, streamRequest := none, streamState := none,
      fellBack := false, nonStreamRun := none }
  else
    let messages := buildMessages summaryPrompt fullText providerType
    let basePayload : Payload :=
      { model := some model, messages := some messages,
        temperature := some temperature }
    let adapted := adaptRequest apiUrl apiKey basePayload providerType
      streamEnabled
    if streamEnabled ∧ onProgress then
      let streamPayload :=
        if providerType = .gemini then adapted.payload
        else { adapted.payload with stream := some true }
      let streamReq : AdaptedRequest := { adapted with payload := streamPayload }
      let st := runEvents providerType initState env.events
      if st.abortedDueToError ∨ env.streamReject.isSome then
        let errResult : Except (List Char) (List Char) :=
          if st.abortedDueToError ∧ st.errorFromProgress ≠ none then
            .error (st.errorFromProgress.getD [])
          else if st.streamComplete ∧ st.gotAnyDelta then .ok (accText st)
          else .error (classifyCatch (env.streamReject.getD abortError))
        { result := errResult, didAdapt := true, basePayload := some basePayload,
          streamRequest := some streamReq, streamState := some st,
          fellBack := false, nonStreamRun := none }
      else
        let streamed := accText st
        if st.gotAnyDelta ∧ streamed ≠ [] then
          { result := .ok streamed, didAdapt := true,
            basePayload := some basePayload, streamRequest := some streamReq,
            streamState := some st, fellBack := false, nonStreamRun := none }
        else
          let ns := nonStreamCompletion apiUrl apiKey basePayload providerType
            env.nonStreamOutcome onProgress
          { result := ns.result, didAdapt := true,
            basePayload := some basePayload, streamRequest := some streamReq,
            streamState := some st, fellBack := true, nonStreamRun := some ns }
    else
      let ns := nonStreamCompletion apiUrl apiKey basePayload providerType
        env.nonStreamOutcome onProgress
      { result := ns.result, didAdapt := true, basePayload := some basePayload,
        streamRequest := none, streamState := none, fellBack := false,
        nonStreamRun := some ns }

/-- The temperature a provider actually receives in a request body:
`generationConfig.temperature` when that object is present (Gemini),
the top-level `temperature` field otherwise. -/
def payloadTempVal (pl : Payload) : Option JsNumV :=
  match pl.generationConfig with
  | some gc => gc.temperature
  | none => pl.temperature

/-! ## Derived notions for the chunk-boundary analysis

These definitions are proof devices (not transcriptions of further
source code): a split of a buffer into its complete lines plus trailing
fragment, a per-line view of the decoder loop body, and the
delta-after-[DONE] side condition under which chunk-boundary
independence holds. -/

/-- Complete `'\n'`-terminated lines of a buffer together with the
trailing unterminated fragment. -/
def linesFrag : List Char → List (List Char) × List Char
  | [] => ([], [])
  | c :: r =>
    let p := linesFrag r
    if c = '\n' then ([] :: p.1, p.2)
    else
      match p.1 with
      | [] => ([], c :: p.2)
      | l :: ls => ((c :: l) :: ls, p.2)

/-- Merge a carried-over fragment into a line split. -/
def joinLF (f : List Char) (p : List (List Char) × List Char) :
    List (List Char) × List Char :=
  match p.1 with
  | [] => ([], f ++ p.2)
  | l :: ls => ((f ++ l) :: ls, p.2)

/-- Each element is a prefix of the next (a chain of growing response
snapshots). -/
def chainPrefix : List (List Char) → Bool
  | [] => true
  | [_] => true
  | a :: b :: r => a.isPrefixOf b && chainPrefix (b :: r)

/-- The body of the `for (const raw of parts)` loop for one line,
without the early return (a `[DONE]` line only sets the flag). -/
def procLine (p : ProviderType) (st : SseState) (raw : List Char) :
    SseState :=
  if (cs "data: ").isPrefixOf raw then
    let jsonStr := jsTrim (raw.drop 6)
    if jsonStr = cs "[DONE]" then { st with streamComplete := true }
    else procJsonStr p st jsonStr
  else if (cs "\x7b").isPrefixOf (jsTrim raw) then procJsonStr p st (jsTrim raw)
  else st

/-- Processing a sequence of lines without early returns. -/
def pureFold (p : ProviderType) (st : SseState) (ls : List (List Char)) :
    SseState :=
  ls.foldl (procLine p) st

/-- The delta a candidate JSON payload string contributes. -/
def jsonStrDelta (p : ProviderType) (j : List Char) : Option (List Char) :=
  if j = [] then none
  else
    match parseJson j with
    | none => none
    | some json => extractedDelta json p

/-- The delta one raw line contributes. -/
def lineDelta (p : ProviderType) (raw : List Char) : Option (List Char) :=
  if (cs "data: ").isPrefixOf raw then
    let jsonStr := jsTrim (raw.drop 6)
    if jsonStr = cs "[DONE]" then none else jsonStrDelta p jsonStr
  else if (cs "\x7b").isPrefixOf (jsTrim raw) then jsonStrDelta p (jsTrim raw)
  else none

/-- Is this raw line the `data: [DONE]` sentinel line? -/
def isDoneLine (raw : List Char) : Bool :=
  if (cs "data: ").isPrefixOf raw then
    if jsTrim (raw.drop 6) = cs "[DONE]" then true else false
  else false

/-- No line strictly after the first `[DONE]` line contributes a
delta. -/
def deltaFreeAfterDone (p : ProviderType) : List (List Char) → Bool
  | [] => true
  | raw :: rest =>
    if isDoneLine raw then rest.all (fun l => (lineDelta p l).isNone)
    else deltaFreeAfterDone p rest

/-- The canonical decoder state after a cumulative buffer `B` has been
fully consumed, however it was chunked. -/
def canonSt (p : ProviderType) (B : List Char) : SseState :=
  { pureFold p initState (linesFrag B).1 with
    processedLength := B.length, partialLine := (linesFrag B).2 }

/-! ## Theorems -/

set_option maxRecDepth 100000

/-- Non-emptiness of a collapsed delta. -/
theorem collapseLF_ne_nil (d : List Char) (hd : d ≠ []) : collapseLF d ≠ [] := by
  cases d with
  | nil => exact absurd rfl hd
  | cons c r =>
    simp only [collapseLF, collapseLFAux]
    by_cases hc : c = '\n' <;> simp [hc]

/-- Characterization of the SSE push block (lines 300–310) under the
delivered-length invariant. -/
theorem pushDeltaSSE_spec (st : SseState) (d : List Char) (hd : d ≠ [])
    (hinv : st.delivered = (accText st).length) :
    pushDeltaSSE st d =
      { st with gotAnyDelta := true,
                chunks := st.chunks ++ [collapseLF d],
                increments := st.increments ++ [collapseLF d],
                delivered := (accText st).length + (collapseLF d).length } := by
  have hne : collapseLF d ≠ [] := collapseLF_ne_nil d hd
  have hpos : 0 < (collapseLF d).length := List.length_pos.mpr hne
  unfold pushDeltaSSE
  simp only [accText] at hinv ⊢
  have hflat : (st.chunks ++ [collapseLF d]).flatten =
      st.chunks.flatten ++ collapseLF d := by
    simp [List.flatten_append]
  rw [if_pos]
  · simp only [hflat, hinv, List.drop_left, List.length_append]
  · simp only [hflat, hinv, List.length_append]
    omega

/-- Characterization of the Gemini push block (lines 221–234) under the
delivered-length invariant: the delta is appended verbatim. -/
theorem pushDeltaGem_spec (st : SseState) (d : List Char) (hd : d ≠ [])
    (hinv : st.delivered = (accText st).length) :
    pushDeltaGem st d =
      { st with gotAnyDelta := true,
                chunks := st.chunks ++ [d],
                increments := st.increments ++ [d],
                delivered := (accText st).length + d.length } := by
  have hpos : 0 < d.length := List.length_pos.mpr hd
  unfold pushDeltaGem
  simp only [accText] at hinv ⊢
  have hflat : (st.chunks ++ [d]).flatten = st.chunks.flatten ++ d := by
    simp [List.flatten_append]
  rw [if_pos]
  · simp only [hflat, hinv, List.drop_left, List.length_append]
  · simp only [hflat, hinv, List.length_append]
    omega

/-- C7 (amended): for a successfully parsed frame whose extracted delta
is a non-empty string, the SSE branch appends the delta with newline
runs collapsed (the Gemini branch appends it verbatim), emits exactly
the new suffix beyond the previously delivered length as one increment,
and advances the delivered-length marker to the new accumulated
length. -/
theorem frame_delta_append (p : ProviderType) (st : SseState)
    (jsonStr : List Char) (json : Json) (d : List Char)
    (hparse : parseJson jsonStr = some json)
    (hdelta : extractedDelta json p = some d)
    (hinv : st.delivered = (accText st).length) :
    procJsonStr p st jsonStr = pushDeltaSSE st d ∧
    (pushDeltaSSE st d).chunks = st.chunks ++ [collapseLF d] ∧
    (pushDeltaSSE st d).increments = st.increments ++ [collapseLF d] ∧
    (pushDeltaSSE st d).delivered = (accText (pushDeltaSSE st d)).length ∧
    (pushDeltaGem st d).chunks = st.chunks ++ [d] ∧
    (pushDeltaGem st d).increments = st.increments ++ [d] ∧
    (pushDeltaGem st d).delivered = (accText (pushDeltaGem st d)).length := by
  have hdne : d ≠ [] := by
    unfold extractedDelta at hdelta
    split at hdelta
    · split at hdelta
      · rename_i hlen
        cases hdelta
        exact List.ne_nil_of_length_pos hlen
      · cases hdelta
    · cases hdelta
  have hjne : jsonStr ≠ [] := by
    intro h
    subst h
    rw [show parseJson [] = none from rfl] at hparse
    cases hparse
  have hsse := pushDeltaSSE_spec st d hdne hinv
  have hgem := pushDeltaGem_spec st d hdne hinv
  refine ⟨?_, ?_, ?_, ?_, ?_, ?_, ?_⟩
  · unfold procJsonStr
    rw [if_neg hjne]
    simp only [hparse, hdelta]
  · rw [hsse]
  · rw [hsse]
  · rw [hsse]
    simp [accText, List.flatten_append]
  · rw [hgem]
  · rw [hgem]
  · rw [hgem]
    simp [accText, List.flatten_append]

/-- C7 (counterexample): the frame `data: {"choices":[{"delta":
{"content":"a\n\nb"}}]}` has extracted delta `"a\n\nb"`, but the text
appended to the accumulated chunks is `"a\nb"` — the extracted string
is *not* appended verbatim in SSE mode. -/
theorem sse_delta_not_verbatim :
    extractedDelta
        ((parseJson (cs "\x7b\"choices\":[\x7b\"delta\":\x7b\"content\":\"a\\n\\nb\"\x7d\x7d]\x7d")).getD .null)
        .openai = some (cs "a\n\nb") ∧
    (runEvents .openai initState
        [⟨200, cs "data: \x7b\"choices\":[\x7b\"delta\":\x7b\"content\":\"a\\n\\nb\"\x7d\x7d]\x7d\n"⟩]).chunks
      = [cs "a\nb"] ∧
    (cs "a\nb" : List Char) ≠ cs "a\n\nb" := by
  refine ⟨by rfl, by decide, by decide⟩

/-- C7 (witness): a concrete frame exercising `frame_delta_append`. -/
theorem frame_delta_append_witness :
    procJsonStr .openai initState
        (cs "\x7b\"choices\":[\x7b\"delta\":\x7b\"content\":\"Hi\"\x7d\x7d]\x7d")
      = pushDeltaSSE initState (cs "Hi") ∧
    (pushDeltaSSE initState (cs "Hi")).chunks = [] ++ [collapseLF (cs "Hi")] ∧
    (pushDeltaSSE initState (cs "Hi")).increments = [] ++ [collapseLF (cs "Hi")] ∧
    (pushDeltaSSE initState (cs "Hi")).delivered
      = (accText (pushDeltaSSE initState (cs "Hi"))).length ∧
    (pushDeltaGem initState (cs "Hi")).chunks = [] ++ [cs "Hi"] ∧
    (pushDeltaGem initState (cs "Hi")).increments = [] ++ [cs "Hi"] ∧
    (pushDeltaGem initState (cs "Hi")).delivered
      = (accText (pushDeltaGem initState (cs "Hi"))).length :=
  frame_delta_append .openai initState
    (cs "\x7b\"choices\":[\x7b\"delta\":\x7b\"content\":\"Hi\"\x7d\x7d]\x7d")
    (Json.obj [(cs "choices", .arr [.obj [(cs "delta",
      .obj [(cs "content", .str (cs "Hi"))])]])])
    (cs "Hi") (by rfl) (by rfl) (by rfl)

/-- C8: the Azure adapter, fed base URL `https://r.openai.azure.com`
(which contains neither `/chat/completions` nor `/deployments/`) and
model `gpt-4`, synthesizes the deployments URL with the fixed
api-version and authenticates with the `api-key` header, not a bearer
`Authorization` header. -/
theorem azure_adapt_url_headers (apiKey : List Char) (bp : Payload)
    (isStreaming : Bool) :
    isInfixL (cs "/openai/deployments/gpt-4/chat/completions?api-version=2023-05-15")
        (adaptRequest (cs "https://r.openai.azure.com") apiKey
          { bp with model := some (cs "gpt-4") } .azure isStreaming).url = true ∧
    (adaptRequest (cs "https://r.openai.azure.com") apiKey
        { bp with model := some (cs "gpt-4") } .azure isStreaming).headers.lookup
        (cs "api-key") = some apiKey ∧
    (adaptRequest (cs "https://r.openai.azure.com") apiKey
        { bp with model := some (cs "gpt-4") } .azure isStreaming).headers.lookup
        (cs "Authorization") = none :=
  ⟨rfl, rfl, rfl⟩

/-- C6: on the growing Gemini buffer `"[{"` →
`"[{"candidates":[{"content":{"parts":[{"text":"Hi"}]}}]}"` → the same
with `"]"` appended, exactly one increment `"Hi"` is emitted, at the
snapshot on which the top-level object closes, and none earlier or
later; the bytes-processed marker stays `0` over the partial snapshot
and advances exactly past the closed object; and a text field containing
braces and an escaped quote is scanned correctly (braces inside strings
are ignored, escapes honoured). -/
theorem gemini_incremental_scan :
    (runEvents .gemini initState [⟨200, cs "[\x7b"⟩]).increments = [] ∧
    (runEvents .gemini initState [⟨200, cs "[\x7b"⟩]).processedLength = 0 ∧
    (runEvents .gemini initState
        [⟨200, cs "[\x7b"⟩,
         ⟨200, cs "[\x7b\"candidates\":[\x7b\"content\":\x7b\"parts\":[\x7b\"text\":\"Hi\"\x7d]\x7d\x7d]\x7d"⟩]).increments
      = [cs "Hi"] ∧
    (runEvents .gemini initState
        [⟨200, cs "[\x7b"⟩,
         ⟨200, cs "[\x7b\"candidates\":[\x7b\"content\":\x7b\"parts\":[\x7b\"text\":\"Hi\"\x7d]\x7d\x7d]\x7d"⟩]).processedLength
      = (cs "[\x7b\"candidates\":[\x7b\"content\":\x7b\"parts\":[\x7b\"text\":\"Hi\"\x7d]\x7d\x7d]\x7d").length ∧
    (runEvents .gemini initState
        [⟨200, cs "[\x7b"⟩,
         ⟨200, cs "[\x7b\"candidates\":[\x7b\"content\":\x7b\"parts\":[\x7b\"text\":\"Hi\"\x7d]\x7d\x7d]\x7d"⟩,
         ⟨200, cs "[\x7b\"candidates\":[\x7b\"content\":\x7b\"parts\":[\x7b\"text\":\"Hi\"\x7d]\x7d\x7d]\x7d]"⟩]).increments
      = [cs "Hi"] ∧
    (runEvents .gemini initState
        [⟨200, cs "[\x7b"⟩,
         ⟨200, cs "[\x7b\"candidates\":[\x7b\"content\":\x7b\"parts\":[\x7b\"text\":\"Hi\"\x7d]\x7d\x7d]\x7d"⟩,
         ⟨200, cs "[\x7b\"candidates\":[\x7b\"content\":\x7b\"parts\":[\x7b\"text\":\"Hi\"\x7d]\x7d\x7d]\x7d]"⟩]).processedLength
      = (cs "[\x7b\"candidates\":[\x7b\"content\":\x7b\"parts\":[\x7b\"text\":\"Hi\"\x7d]\x7d\x7d]\x7d").length ∧
    (runEvents .gemini initState
        [⟨200, cs "[\x7b\"candidates\":[\x7b\"content\":\x7b\"parts\":[\x7b\"text\":\"x\x7by\x7dz\\\"w\"\x7d]\x7d\x7d]\x7d"⟩]).increments
      = [cs "x\x7by\x7dz\"w"] := by
  refine ⟨by decide, by decide, by decide, by decide, by decide, by decide, by decide⟩

/-- The decoding paths never touch the abort flag, the captured error,
nor (for the SSE line path) `processedLength`/`partialLine` once set. -/
theorem pushDeltaSSE_frame (st : SseState) (d : List Char) :
    (pushDeltaSSE st d).abortedDueToError = st.abortedDueToError ∧
    (pushDeltaSSE st d).errorFromProgress = st.errorFromProgress ∧
    (pushDeltaSSE st d).processedLength = st.processedLength ∧
    (pushDeltaSSE st d).partialLine = st.partialLine := by
  unfold pushDeltaSSE
  try dsimp only
  split <;> exact ⟨rfl, rfl, rfl, rfl⟩

theorem pushDeltaGem_frame (st : SseState) (d : List Char) :
    (pushDeltaGem st d).abortedDueToError = st.abortedDueToError ∧
    (pushDeltaGem st d).errorFromProgress = st.errorFromProgress := by
  unfold pushDeltaGem
  try dsimp only
  split <;> exact ⟨rfl, rfl⟩

theorem procJsonStr_frame (p : ProviderType) (st : SseState) (j : List Char) :
    (procJsonStr p st j).abortedDueToError = st.abortedDueToError ∧
    (procJsonStr p st j).errorFromProgress = st.errorFromProgress ∧
    (procJsonStr p st j).processedLength = st.processedLength ∧
    (procJsonStr p st j).partialLine = st.partialLine := by
  unfold procJsonStr
  split
  · exact ⟨rfl, rfl, rfl, rfl⟩
  · split
    · exact ⟨rfl, rfl, rfl, rfl⟩
    · split
      · exact pushDeltaSSE_frame st _
      · exact ⟨rfl, rfl, rfl, rfl⟩

theorem procParts_frame (p : ProviderType) (parts : List (List Char))
    (st : SseState) :
    (procParts p st parts).abortedDueToError = st.abortedDueToError ∧
    (procParts p st parts).errorFromProgress = st.errorFromProgress ∧
    (procParts p st parts).processedLength = st.processedLength ∧
    (procParts p st parts).partialLine = st.partialLine := by
  induction parts generalizing st with
  | nil => exact ⟨rfl, rfl, rfl, rfl⟩
  | cons raw rest ih =>
    unfold procParts
    try dsimp only
    split
    · split
      · exact ⟨rfl, rfl, rfl, rfl⟩
      · have h1 := procJsonStr_frame p st (jsTrim (raw.drop 6))
        have h2 := ih (procJsonStr p st (jsTrim (raw.drop 6)))
        exact ⟨h2.1.trans h1.1, h2.2.1.trans h1.2.1,
               h2.2.2.1.trans h1.2.2.1, h2.2.2.2.trans h1.2.2.2⟩
    · split
      · have h1 := procJsonStr_frame p st (jsTrim raw)
        have h2 := ih (procJsonStr p st (jsTrim raw))
        exact ⟨h2.1.trans h1.1, h2.2.1.trans h1.2.1,
               h2.2.2.1.trans h1.2.2.1, h2.2.2.2.trans h1.2.2.2⟩
      · exact ih st

theorem sseStep_frame (p : ProviderType) (st : SseState) (resp : List Char) :
    (sseStep p st resp).abortedDueToError = st.abortedDueToError ∧
    (sseStep p st resp).errorFromProgress = st.errorFromProgress := by
  unfold sseStep
  try dsimp only
  split
  · exact ⟨(procParts_frame p _ _).1, (procParts_frame p _ _).2.1⟩
  · exact ⟨(procParts_frame p _ _).1, (procParts_frame p _ _).2.1⟩

theorem gemLoop_frame (rest : List Char) (st : SseState) (i : Nat)
    (objAcc : Option (List Char)) (bc : Nat) (instr esc : Bool) :
    (gemLoop st rest i objAcc bc instr esc).abortedDueToError
      = st.abortedDueToError ∧
    (gemLoop st rest i objAcc bc instr esc).errorFromProgress
      = st.errorFromProgress := by
  induction rest generalizing st i objAcc bc instr esc with
  | nil => exact ⟨rfl, rfl⟩
  | cons c r ih =>
    cases objAcc with
    | none =>
      unfold gemLoop
      split <;> exact ih ..
    | some acc =>
      unfold gemLoop
      try dsimp only
      repeat' split
      all_goals
        first
          | exact ih ..
          | exact ⟨((ih ..).1).trans (pushDeltaGem_frame st _).1,
                   ((ih ..).2).trans (pushDeltaGem_frame st _).2⟩

/-- A progress event with a non-error status never sets the abort flag
or the captured error. -/
theorem progressStep_ok_frame (p : ProviderType) (st : SseState) (ev : Event)
    (hok : ev.status < 400) :
    (progressStep p st ev).abortedDueToError = st.abortedDueToError ∧
    (progressStep p st ev).errorFromProgress = st.errorFromProgress := by
  unfold progressStep
  rw [if_neg (by omega)]
  split
  · split
    · exact gemLoop_frame ..
    · exact sseStep_frame ..
  · exact ⟨rfl, rfl⟩

/-- A progress event with status ≥ 400 and a non-empty body sets the
abort flag and captures the classified error, and performs no frame
processing whatsoever. -/
theorem progressStep_error (p : ProviderType) (st : SseState) (ev : Event)
    (herr : 400 ≤ ev.status) (hbody : ev.resp ≠ []) :
    progressStep p st ev =
      { st with abortedDueToError := true,
                errorFromProgress := some (progressErrorMsg ev.status ev.resp) } := by
  unfold progressStep
  rw [if_pos herr, if_pos hbody]

/-- A run over error-free events never aborts. -/
theorem runEvents_ok_not_aborted (p : ProviderType) (es : List Event)
    (st : SseState) (hok : ∀ e ∈ es, e.status < 400)
    (h0 : st.abortedDueToError = false) :
    (runEvents p st es).abortedDueToError = false := by
  induction es generalizing st with
  | nil => exact h0
  | cons e rest ih =>
    unfold runEvents
    try dsimp only
    have he : (progressStep p st e).abortedDueToError = false :=
      ((progressStep_ok_frame p st e (hok e (by simp))).1).trans h0
    rw [if_neg (by simp [he])]
    exact ih _ (fun x hx => hok x (by simp [hx])) he

/-- Running past error-free events composes. -/
theorem runEvents_append_ok (p : ProviderType) (pre rest : List Event)
    (st : SseState) (hok : ∀ e ∈ pre, e.status < 400)
    (h0 : st.abortedDueToError = false) :
    runEvents p st (pre ++ rest) = runEvents p (runEvents p st pre) rest := by
  induction pre generalizing st with
  | nil => rfl
  | cons e pre' ih =>
    have he : (progressStep p st e).abortedDueToError = false :=
      ((progressStep_ok_frame p st e (hok e (by simp))).1).trans h0
    show (let st1 := progressStep p st e;
      if st1.abortedDueToError then st1 else runEvents p st1 (pre' ++ rest)) = _
    rw [show runEvents p st (e :: pre') =
      (let st1 := progressStep p st e;
       if st1.abortedDueToError then st1 else runEvents p st1 pre') from rfl]
    try dsimp only
    rw [if_neg (by simp [he]), if_neg (by simp [he])]
    exact ih _ (fun x hx => hok x (by simp [hx])) he

/-- After an aborting event the transport delivers nothing further:
the run stops at the aborting event's state. -/
theorem runEvents_stops_on_abort (p : ProviderType) (ev : Event)
    (post : List Event) (st : SseState)
    (hab : (progressStep p st ev).abortedDueToError = true) :
    runEvents p st (ev :: post) = progressStep p st ev := by
  unfold runEvents
  try dsimp only
  rw [if_pos (by simp [hab])]

/-- C5 (amended): a progress event with HTTP status ≥ 400 *and a
non-empty response body* sets the abort flag, records the classified
error (provider `code: message` when the body parses, generic
`HTTP <status>: 请求失败` otherwise) and aborts the request, so that no
frame of that event is processed and no further increment is ever
delivered; the call then rejects with exactly that error. -/
theorem http_error_mid_stream (prefs : Prefs) (fullText : List Char)
    (promptArg : Option (List Char)) (pre post : List Event) (ev : Event)
    (sr : Option TransportError) (nsOut : Except TransportError Json)
    (hurl : jsTrim (jsOrL prefs.apiUrl []) ≠ [])
    (hkey : ¬(jsTrim (jsOrL prefs.apiKey []) = [] ∧
      detectProvider (jsTrim (jsOrL prefs.apiUrl [])) ≠ ProviderType.gemini))
    (hstream : prefs.stream.getD true = true)
    (hpre : ∀ e ∈ pre, e.status < 400)
    (herr : 400 ≤ ev.status) (hbody : ev.resp ≠ []) :
    (generateSummary prefs fullText promptArg true
        ⟨pre ++ ev :: post, sr, nsOut⟩).result
      = .error (progressErrorMsg ev.status ev.resp) ∧
    (generateSummary prefs fullText promptArg true
        ⟨pre ++ ev :: post, sr, nsOut⟩).streamState
      = some { runEvents (detectProvider (jsTrim (jsOrL prefs.apiUrl [])))
                  initState pre with
               abortedDueToError := true,
               errorFromProgress := some (progressErrorMsg ev.status ev.resp) } ∧
    (∀ body c m, parseJson ev.resp = some body →
      (jsOr (body.jGet (cs "error")) body).jGet (cs "code") = .str c → c ≠ [] →
      (jsOr (body.jGet (cs "error")) body).jGet (cs "message") = .str m → m ≠ [] →
      progressErrorMsg ev.status ev.resp = c ++ cs ": " ++ m) ∧
    (parseJson ev.resp = none →
      progressErrorMsg ev.status ev.resp
        = cs "HTTP " ++ natStr ev.status ++ cs ": 请求失败") := by
  have hrun : ∀ p : ProviderType,
      runEvents p initState (pre ++ ev :: post) =
        { runEvents p initState pre with
          abortedDueToError := true,
          errorFromProgress := some (progressErrorMsg ev.status ev.resp) } := by
    intro p
    rw [runEvents_append_ok p pre (ev :: post) initState hpre rfl]
    have hstep := progressStep_error p (runEvents p initState pre) ev herr hbody
    rw [runEvents_stops_on_abort p ev post _ (by rw [hstep])]
    exact hstep
  refine ⟨?_, ?_, ?_, ?_⟩
  · unfold generateSummary
    try dsimp only
    rw [if_neg hurl, if_neg hkey, if_pos ⟨hstream, rfl⟩, hrun]
    try dsimp only
    rw [if_pos (Or.inl rfl)]
    try dsimp only
    rw [if_pos ⟨rfl, by simp⟩]
    rfl
  · unfold generateSummary
    try dsimp only
    rw [if_neg hurl, if_neg hkey, if_pos ⟨hstream, rfl⟩, hrun]
    try dsimp only
    rw [if_pos (Or.inl rfl)]
  · intro body c m hparse hc hcne hm hmne
    unfold progressErrorMsg
    rw [hparse]
    try dsimp only
    rw [hc, hm]
    simp [jsTruthy, jsToStr, hcne, hmne]
  · intro hparse
    unfold progressErrorMsg
    rw [hparse]

/-- C5 (counterexample to the claim as stated): a 401 progress event
with an *empty* body (hence unparsable) neither sets the abort flag nor
records any error — the handler's `if (errorResponse)` guard skips the
whole branch — and the call then falls back and succeeds instead of
rejecting. -/
theorem http_error_empty_body_ignored :
    progressStep .openai initState ⟨401, []⟩ = initState ∧
    (generateSummary
        ⟨some (cs "k"), some (cs "https://api.openai.com/v1/chat/completions"),
         none, none, none, none⟩
        (cs "T") none true
        ⟨[⟨401, []⟩], none,
         .ok (Json.obj [(cs "choices", .arr [.obj [(cs "message",
           .obj [(cs "content", .str (cs "FB"))])]])])⟩).result
      = .ok (cs "FB") := by
  exact ⟨by decide, by rfl⟩

/-- C5 (witness): a concrete 401 with a provider error body. -/
theorem http_error_mid_stream_witness :
    (generateSummary
        ⟨some (cs "k"), some (cs "https://api.openai.com/v1/chat/completions"),
         none, none, none, none⟩
        (cs "T") none true
        ⟨[] ++ ⟨401, cs "\x7b\"error\":\x7b\"code\":\"invalid_api_key\",\"message\":\"bad\"\x7d\x7d"⟩ :: [],
         none, .ok .null⟩).result
      = .error (progressErrorMsg 401
          (cs "\x7b\"error\":\x7b\"code\":\"invalid_api_key\",\"message\":\"bad\"\x7d\x7d")) ∧
    progressErrorMsg 401 (cs "\x7b\"error\":\x7b\"code\":\"invalid_api_key\",\"message\":\"bad\"\x7d\x7d")
      = cs "invalid_api_key" ++ cs ": " ++ cs "bad" := by
  have h := http_error_mid_stream
    ⟨some (cs "k"), some (cs "https://api.openai.com/v1/chat/completions"),
     none, none, none, none⟩
    (cs "T") none [] []
    ⟨401, cs "\x7b\"error\":\x7b\"code\":\"invalid_api_key\",\"message\":\"bad\"\x7d\x7d"⟩
    none (.ok .null)
    (by decide) (by decide) (by decide) (by intro e he; cases he)
    (by decide) (by decide)
  exact ⟨h.1, h.2.2.1
    (Json.obj [(cs "error", .obj [(cs "code", .str (cs "invalid_api_key")),
      (cs "message", .str (cs "bad"))])])
    (cs "invalid_api_key") (cs "bad") (by rfl) (by rfl) (by decide)
    (by rfl) (by decide)⟩

/-- C4: when the streaming request rejects with a transport error not
caused by the decoder's own abort, the accumulated text is returned as
success exactly when the `[DONE]` sentinel was seen and at least one
delta was delivered; otherwise the transport error is classified and
thrown. -/
theorem transport_error_reclassified (prefs : Prefs) (fullText : List Char)
    (promptArg : Option (List Char)) (events : List Event)
    (e : TransportError) (nsOut : Except TransportError Json)
    (hurl : jsTrim (jsOrL prefs.apiUrl []) ≠ [])
    (hkey : ¬(jsTrim (jsOrL prefs.apiKey []) = [] ∧
      detectProvider (jsTrim (jsOrL prefs.apiUrl [])) ≠ ProviderType.gemini))
    (hstream : prefs.stream.getD true = true)
    (hnab : (runEvents (detectProvider (jsTrim (jsOrL prefs.apiUrl [])))
      initState events).abortedDueToError = false) :
    ((runEvents (detectProvider (jsTrim (jsOrL prefs.apiUrl [])))
        initState events).streamComplete = true →
      (runEvents (detectProvider (jsTrim (jsOrL prefs.apiUrl [])))
        initState events).gotAnyDelta = true →
      (generateSummary prefs fullText promptArg true
          ⟨events, some e, nsOut⟩).result
        = .ok (accText (runEvents (detectProvider (jsTrim (jsOrL prefs.apiUrl [])))
            initState events))) ∧
    (¬((runEvents (detectProvider (jsTrim (jsOrL prefs.apiUrl [])))
          initState events).streamComplete = true ∧
       (runEvents (detectProvider (jsTrim (jsOrL prefs.apiUrl [])))
          initState events).gotAnyDelta = true) →
      (generateSummary prefs fullText promptArg true
          ⟨events, some e, nsOut⟩).result = .error (classifyCatch e)) := by
  constructor
  · intro h1 h2
    unfold generateSummary
    try dsimp only
    rw [if_neg hurl, if_neg hkey, if_pos ⟨hstream, rfl⟩]
    try dsimp only
    split
    · try dsimp only
      rw [if_neg (by simp [hnab]), if_pos ⟨h1, h2⟩]
    · rename_i hc
      exact absurd (Or.inr rfl) hc
  · intro h
    unfold generateSummary
    try dsimp only
    rw [if_neg hurl, if_neg hkey, if_pos ⟨hstream, rfl⟩]
    try dsimp only
    split
    · try dsimp only
      repeat' split
      all_goals
        first
          | rfl
          | (rename_i hc
             rw [hnab] at hc
             exact absurd hc.1 (by simp))
    · rename_i hc
      exact absurd (Or.inr rfl) hc

/-- C4 (witness): a stream that saw one delta and then `[DONE]`, whose
connection then errors out, still returns the accumulated text. -/
theorem transport_error_reclassified_witness :
    (generateSummary
        ⟨some (cs "k"), some (cs "https://api.openai.com/v1/chat/completions"),
         none, none, none, none⟩
        (cs "T") none true
        ⟨[⟨200, cs "data: \x7b\"choices\":[\x7b\"delta\":\x7b\"content\":\"Hi\"\x7d\x7d]\x7d\ndata: [DONE]\n"⟩],
         some ⟨none, some (cs "net fail"), none, cs "E"⟩, .ok .null⟩).result
      = .ok (accText (runEvents
          (detectProvider (jsTrim (jsOrL (some (cs "https://api.openai.com/v1/chat/completions")) [])))
          initState
          [⟨200, cs "data: \x7b\"choices\":[\x7b\"delta\":\x7b\"content\":\"Hi\"\x7d\x7d]\x7d\ndata: [DONE]\n"⟩])) :=
  (transport_error_reclassified
    ⟨some (cs "k"), some (cs "https://api.openai.com/v1/chat/completions"),
     none, none, none, none⟩
    (cs "T") none
    [⟨200, cs "data: \x7b\"choices\":[\x7b\"delta\":\x7b\"content\":\"Hi\"\x7d\x7d]\x7d\ndata: [DONE]\n"⟩]
    ⟨none, some (cs "net fail"), none, cs "E"⟩ (.ok .null)
    (by decide) (by decide) (by decide) (by decide)).1 (by decide) (by decide)

/-- Whatever the exchange's outcome, `nonStreamCompletion` adapts its
request with `isStreaming = false`. -/
theorem nonStreamCompletion_request (u k : List Char) (bp : Payload)
    (p : ProviderType) (o : Except TransportError Json) (onp : Bool) :
    (nonStreamCompletion u k bp p o onp).request = adaptRequest u k bp p false := by
  unfold nonStreamCompletion
  cases o <;> rfl

/-- C3: if the stream ends (the request resolving, e.g. after `[DONE]`)
with no delta ever extracted and no abort, the call silently falls back
to one non-streaming request — adapted from the same validated
configuration with `isStreaming = false` — and returns that request's
extracted completion text. -/
theorem zero_delta_fallback (prefs : Prefs) (fullText : List Char)
    (promptArg : Option (List Char)) (events : List Event)
    (nsOut : Except TransportError Json)
    (hurl : jsTrim (jsOrL prefs.apiUrl []) ≠ [])
    (hkey : ¬(jsTrim (jsOrL prefs.apiKey []) = [] ∧
      detectProvider (jsTrim (jsOrL prefs.apiUrl [])) ≠ ProviderType.gemini))
    (hstream : prefs.stream.getD true = true)
    (hnab : (runEvents (detectProvider (jsTrim (jsOrL prefs.apiUrl [])))
      initState events).abortedDueToError = false)
    (hnod : (runEvents (detectProvider (jsTrim (jsOrL prefs.apiUrl [])))
      initState events).gotAnyDelta = false) :
    (generateSummary prefs fullText promptArg true ⟨events, none, nsOut⟩).fellBack
      = true ∧
    (∀ bp, (generateSummary prefs fullText promptArg true
        ⟨events, none, nsOut⟩).basePayload = some bp →
      (generateSummary prefs fullText promptArg true
          ⟨events, none, nsOut⟩).nonStreamRun
        = some (nonStreamCompletion (jsTrim (jsOrL prefs.apiUrl []))
            (jsTrim (jsOrL prefs.apiKey [])) bp
            (detectProvider (jsTrim (jsOrL prefs.apiUrl []))) nsOut true) ∧
      (generateSummary prefs fullText promptArg true
          ⟨events, none, nsOut⟩).nonStreamRun.map (fun r => r.request)
        = some (adaptRequest (jsTrim (jsOrL prefs.apiUrl []))
            (jsTrim (jsOrL prefs.apiKey [])) bp
            (detectProvider (jsTrim (jsOrL prefs.apiUrl []))) false)) ∧
    (∀ body, nsOut = .ok body →
      (generateSummary prefs fullText promptArg true
          ⟨events, none, nsOut⟩).result
        = .ok (nonStreamExtract
            (detectProvider (jsTrim (jsOrL prefs.apiUrl []))) body)) := by
  have hmain : ∀ (how : Unit),
      (generateSummary prefs fullText promptArg true ⟨events, none, nsOut⟩)
      = (generateSummary prefs fullText promptArg true ⟨events, none, nsOut⟩) :=
    fun _ => rfl
  refine ⟨?_, ?_, ?_⟩
  · unfold generateSummary
    try dsimp only
    rw [if_neg hurl, if_neg hkey, if_pos ⟨hstream, rfl⟩]
    try dsimp only
    rw [if_neg (by simp [hnab]), if_neg (by simp [hnod])]
  · intro bp hbp
    unfold generateSummary at hbp ⊢
    try dsimp only at hbp ⊢
    rw [if_neg hurl, if_neg hkey, if_pos ⟨hstream, rfl⟩] at hbp ⊢
    try dsimp only at hbp ⊢
    rw [if_neg (by simp [hnab]), if_neg (by simp [hnod])] at hbp ⊢
    try dsimp only at hbp
    cases hbp
    refine ⟨rfl, ?_⟩
    simp only [Option.map_some']
    rw [nonStreamCompletion_request]
  · intro body hb
    subst hb
    unfold generateSummary
    try dsimp only
    rw [if_neg hurl, if_neg hkey, if_pos ⟨hstream, rfl⟩]
    try dsimp only
    rw [if_neg (by simp [hnab]), if_neg (by simp [hnod])]
    rfl

/-- C3 (witness): `[DONE]` with zero deltas falls back and returns the
non-streaming completion text. -/
theorem zero_delta_fallback_witness :
    (generateSummary
        ⟨some (cs "k"), some (cs "https://api.openai.com/v1/chat/completions"),
         none, none, none, none⟩
        (cs "T") none true
        ⟨[⟨200, cs "data: [DONE]\n"⟩], none,
         .ok (Json.obj [(cs "choices", .arr [.obj [(cs "message",
           .obj [(cs "content", .str (cs "FB"))])]])])⟩).result
      = .ok (nonStreamExtract
          (detectProvider (jsTrim (jsOrL (some (cs "https://api.openai.com/v1/chat/completions")) [])))
          (Json.obj [(cs "choices", .arr [.obj [(cs "message",
            .obj [(cs "content", .str (cs "FB"))])]])])) :=
  (zero_delta_fallback
    ⟨some (cs "k"), some (cs "https://api.openai.com/v1/chat/completions"),
     none, none, none, none⟩
    (cs "T") none [⟨200, cs "data: [DONE]\n"⟩]
    (.ok (Json.obj [(cs "choices", .arr [.obj [(cs "message",
      .obj [(cs "content", .str (cs "FB"))])]])]))
    (by decide) (by decide) (by decide) (by decide) (by decide)).2.2 _ rfl

/-- The adapter forwards the base payload's temperature unchanged into
the position the provider reads it from. -/
theorem payloadTempVal_of_gc_none (pl : Payload)
    (h : pl.generationConfig = none) : payloadTempVal pl = pl.temperature := by
  unfold payloadTempVal
  rw [h]

theorem adaptRequest_temp (u k : List Char) (bp : Payload) (p : ProviderType)
    (b : Bool) (hg : bp.generationConfig = none) :
    payloadTempVal (adaptRequest u k bp p b).payload = bp.temperature := by
  cases p
  case gemini => rfl
  case claude =>
    have hgc : (adaptRequest u k bp .claude b).payload.generationConfig
        = none := by
      unfold adaptRequest
      try dsimp only
      cases List.find? (fun m => decide (m.role = cs "system"))
          (bp.messages.getD []) <;>
        (try dsimp only
         repeat' split <;> first | exact hg | rfl | simp_all)
    have ht : (adaptRequest u k bp .claude b).payload.temperature
        = bp.temperature := by
      unfold adaptRequest
      try dsimp only
      cases List.find? (fun m => decide (m.role = cs "system"))
          (bp.messages.getD []) <;>
        (try dsimp only
         repeat' split <;> first | rfl | (split <;> rfl))
    rw [payloadTempVal_of_gc_none _ hgc, ht]
  all_goals
    (unfold adaptRequest payloadTempVal
     try dsimp only
     repeat' split <;> first | rfl | simp_all)

/-- The `stream` flag does not move the temperature. -/
theorem payloadTempVal_stream (pl : Payload) (b : Option Bool) :
    payloadTempVal { pl with stream := b } = payloadTempVal pl := rfl


/-- C9: configuration validation precedes adaptation and any network
request: an empty (after trimming) endpoint URL, or an empty API key
with a non-Gemini classified provider, yields the configuration error
with nothing adapted and no request issued; for Gemini an empty API key
passes validation. -/
theorem config_validation (prefs : Prefs) (fullText : List Char)
    (promptArg : Option (List Char)) (onP : Bool) (env : Env) :
    (jsTrim (jsOrL prefs.apiUrl []) = [] →
      (generateSummary prefs fullText promptArg onP env).result
        = .error (cs "API URL 未配置") ∧
      (generateSummary prefs fullText promptArg onP env).didAdapt = false ∧
      (generateSummary prefs fullText promptArg onP env).streamRequest = none ∧
      (generateSummary prefs fullText promptArg onP env).nonStreamRun = none) ∧
    (jsTrim (jsOrL prefs.apiUrl []) ≠ [] →
      jsTrim (jsOrL prefs.apiKey []) = [] →
      detectProvider (jsTrim (jsOrL prefs.apiUrl [])) ≠ .gemini →
      (generateSummary prefs fullText promptArg onP env).result
        = .error (cs "API Key 未配置") ∧
      (generateSummary prefs fullText promptArg onP env).didAdapt = false ∧
      (generateSummary prefs fullText promptArg onP env).streamRequest = none ∧
      (generateSummary prefs fullText promptArg onP env).nonStreamRun = none) ∧
    (jsTrim (jsOrL prefs.apiUrl []) ≠ [] →
      detectProvider (jsTrim (jsOrL prefs.apiUrl [])) = .gemini →
      (generateSummary prefs fullText promptArg onP env).didAdapt = true) := by
  refine ⟨?_, ?_, ?_⟩
  · intro hu
    unfold generateSummary
    try dsimp only
    rw [if_pos hu]
    exact ⟨rfl, rfl, rfl, rfl⟩
  · intro hu hk hg
    unfold generateSummary
    try dsimp only
    rw [if_neg hu, if_pos ⟨hk, hg⟩]
    exact ⟨rfl, rfl, rfl, rfl⟩
  · intro hu hg
    unfold generateSummary
    try dsimp only
    rw [if_neg hu, if_neg (by rintro ⟨_, hne⟩; exact hne hg)]
    try dsimp only
    repeat' split
    all_goals rfl

/-- C9 (witness): concrete empty-URL, empty-key and Gemini cases. -/
theorem config_validation_witness :
    (generateSummary ⟨some (cs "k"), some (cs "  "), none, none, none, none⟩
        (cs "T") none true ⟨[], none, .ok .null⟩).result
      = .error (cs "API URL 未配置") ∧
    (generateSummary ⟨none, some (cs "https://api.openai.com/x"), none, none,
        none, none⟩ (cs "T") none true ⟨[], none, .ok .null⟩).result
      = .error (cs "API Key 未配置") ∧
    (generateSummary ⟨none,
        some (cs "https://generativelanguage.googleapis.com/v1beta/models"),
        none, none, none, none⟩ (cs "T") none true
        ⟨[], none, .ok .null⟩).didAdapt = true := by
  refine ⟨?_, ?_, ?_⟩
  · exact ((config_validation ⟨some (cs "k"), some (cs "  "), none, none, none,
      none⟩ (cs "T") none true ⟨[], none, .ok .null⟩).1 (by decide)).1
  · exact (((config_validation ⟨none, some (cs "https://api.openai.com/x"),
      none, none, none, none⟩ (cs "T") none true ⟨[], none, .ok .null⟩).2.1
      (by decide) (by decide) (by decide)).1)
  · exact ((config_validation ⟨none,
      some (cs "https://generativelanguage.googleapis.com/v1beta/models"),
      none, none, none, none⟩ (cs "T") none true ⟨[], none, .ok .null⟩).2.2
      (by decide) (by decide))

/-- C10: `parseFloat(temperatureStr) || 0.7` — a stored temperature
preference parsing to `0` (or `NaN`, e.g. a non-numeric string) is
silently replaced by `0.7` in the request body; a preference parsing to
a truthy (non-zero) number is forwarded as configured; consequently the
temperature carried by the adapted request of either path is never the
number `0`. -/
theorem temperature_default_sub (prefs : Prefs) (fullText : List Char)
    (promptArg : Option (List Char)) (onP : Bool) (env : Env) :
    (∀ pl, (generateSummary prefs fullText promptArg onP env).basePayload
        = some pl →
      pl.temperature = some (resolvedTemperature prefs.temperature)) ∧
    (∀ s, prefs.temperature = some s →
      (parseFloat s = none ∨
        ∃ q, parseFloat s = some (.fin q) ∧ q.isZero = true) →
      resolvedTemperature prefs.temperature = .fin ⟨7, 10⟩) ∧
    (∀ s v, prefs.temperature = some s → parseFloat s = some v →
      v.truthy = true → resolvedTemperature prefs.temperature = v) ∧
    (resolvedTemperature prefs.temperature).truthy = true ∧
    (∀ req, (generateSummary prefs fullText promptArg onP env).streamRequest
        = some req →
      payloadTempVal req.payload
        = some (resolvedTemperature prefs.temperature)) := by
  have hbase : ∀ pl,
      (generateSummary prefs fullText promptArg onP env).basePayload = some pl →
      pl.temperature = some (resolvedTemperature prefs.temperature) := by
    intro pl hpl
    unfold generateSummary at hpl
    try dsimp only at hpl
    repeat' split at hpl
    all_goals (cases hpl <;> rfl)
  have htruthy : (resolvedTemperature prefs.temperature).truthy = true := by
    unfold resolvedTemperature
    try dsimp only
    split
    · split
      · rename_i hv
        exact hv
      · rfl
    · rfl
  refine ⟨hbase, ?_, ?_, htruthy, ?_⟩
  · intro s hs hz
    rw [hs]
    unfold resolvedTemperature
    by_cases hnil : s = []
    · subst hnil
      rfl
    · have hstr : jsOrL (some s) (cs "0.7") = s := by
        simp [jsOrL, hnil]
      try dsimp only
      rw [hstr]
      rcases hz with hz | ⟨q, hq, hq0⟩
      · rw [hz]
      · rw [hq]
        try dsimp only
        rw [if_neg (by simp [JsNumV.truthy, hq0])]
  · intro s v hs hv htr
    rw [hs]
    have hnil : s ≠ [] := by
      intro h
      subst h
      rw [show parseFloat [] = none from rfl] at hv
      cases hv
    unfold resolvedTemperature
    have hstr : jsOrL (some s) (cs "0.7") = s := by
      simp [jsOrL, hnil]
    try dsimp only
    rw [hstr, hv]
    try dsimp only
    rw [if_pos htr]
  · intro req hreq
    unfold generateSummary at hreq
    try dsimp only at hreq
    repeat' split at hreq
    all_goals try (cases hreq)
    all_goals exact adaptRequest_temp _ _ _ _ _ rfl

/-- C10 (witness): preference `"0"` is replaced by `0.7` in the adapted
streaming request. -/
theorem temperature_default_sub_witness :
    resolvedTemperature (some (cs "0")) = .fin ⟨7, 10⟩ ∧
    (resolvedTemperature (some (cs "0"))).truthy = true ∧
    (∀ req, (generateSummary
        ⟨some (cs "k"), some (cs "https://api.openai.com/v1/chat/completions"),
         none, some (cs "0"), none, none⟩
        (cs "T") none true ⟨[], none, .ok .null⟩).streamRequest = some req →
      payloadTempVal req.payload = some (resolvedTemperature (some (cs "0")))) := by
  have h := temperature_default_sub
    ⟨some (cs "k"), some (cs "https://api.openai.com/v1/chat/completions"),
     none, some (cs "0"), none, none⟩
    (cs "T") none true ⟨[], none, .ok .null⟩
  exact ⟨h.2.1 (cs "0") rfl (Or.inr ⟨⟨0, 1⟩, rfl, rfl⟩), h.2.2.2.1, h.2.2.2.2⟩

/-- A delta accepted by the `typeof delta === "string" && delta.length
> 0` guard is non-empty. -/
theorem extractedDelta_ne (json : Json) (p : ProviderType) (d : List Char)
    (h : extractedDelta json p = some d) : d ≠ [] := by
  unfold extractedDelta at h
  split at h
  · split at h
    · rename_i hlen
      cases h
      exact List.ne_nil_of_length_pos hlen
    · cases h
  · cases h

theorem pushDeltaSSE_inv (st : SseState) (d : List Char) (hd : d ≠ [])
    (h1 : st.delivered = (accText st).length)
    (h2 : st.increments.flatten = accText st) :
    (pushDeltaSSE st d).delivered = (accText (pushDeltaSSE st d)).length ∧
    (pushDeltaSSE st d).increments.flatten = accText (pushDeltaSSE st d) ∧
    st.delivered ≤ (pushDeltaSSE st d).delivered := by
  rw [pushDeltaSSE_spec st d hd h1]
  refine ⟨?_, ?_, ?_⟩
  · simp [accText, List.flatten_append]
  · simp [accText, List.flatten_append, h2]
  · simp [h1]

theorem pushDeltaGem_inv (st : SseState) (d : List Char) (hd : d ≠ [])
    (h1 : st.delivered = (accText st).length)
    (h2 : st.increments.flatten = accText st) :
    (pushDeltaGem st d).delivered = (accText (pushDeltaGem st d)).length ∧
    (pushDeltaGem st d).increments.flatten = accText (pushDeltaGem st d) ∧
    st.delivered ≤ (pushDeltaGem st d).delivered := by
  rw [pushDeltaGem_spec st d hd h1]
  refine ⟨?_, ?_, ?_⟩
  · simp [accText, List.flatten_append]
  · simp [accText, List.flatten_append, h2]
  · simp [h1]

theorem procJsonStr_inv (p : ProviderType) (st : SseState) (j : List Char)
    (h1 : st.delivered = (accText st).length)
    (h2 : st.increments.flatten = accText st) :
    (procJsonStr p st j).delivered = (accText (procJsonStr p st j)).length ∧
    (procJsonStr p st j).increments.flatten = accText (procJsonStr p st j) ∧
    st.delivered ≤ (procJsonStr p st j).delivered := by
  unfold procJsonStr
  split
  · exact ⟨h1, h2, Nat.le_refl _⟩
  · split
    · exact ⟨h1, h2, Nat.le_refl _⟩
    · split
      · exact pushDeltaSSE_inv st _
          (extractedDelta_ne _ p _ (by assumption)) h1 h2
      · exact ⟨h1, h2, Nat.le_refl _⟩

theorem procParts_inv (p : ProviderType) (parts : List (List Char))
    (st : SseState)
    (h1 : st.delivered = (accText st).length)
    (h2 : st.increments.flatten = accText st) :
    (procParts p st parts).delivered = (accText (procParts p st parts)).length ∧
    (procParts p st parts).increments.flatten = accText (procParts p st parts) ∧
    st.delivered ≤ (procParts p st parts).delivered := by
  induction parts generalizing st with
  | nil => exact ⟨h1, h2, Nat.le_refl _⟩
  | cons raw rest ih =>
    unfold procParts
    try dsimp only
    split
    · split
      · exact ⟨h1, h2, Nat.le_refl _⟩
      · have hj := procJsonStr_inv p st (jsTrim (raw.drop 6)) h1 h2
        have hr := ih _ hj.1 hj.2.1
        exact ⟨hr.1, hr.2.1, Nat.le_trans hj.2.2 hr.2.2⟩
    · split
      · have hj := procJsonStr_inv p st (jsTrim raw) h1 h2
        have hr := ih _ hj.1 hj.2.1
        exact ⟨hr.1, hr.2.1, Nat.le_trans hj.2.2 hr.2.2⟩
      · exact ih st h1 h2

theorem sseStep_inv (p : ProviderType) (st : SseState) (resp : List Char)
    (h1 : st.delivered = (accText st).length)
    (h2 : st.increments.flatten = accText st) :
    (sseStep p st resp).delivered = (accText (sseStep p st resp)).length ∧
    (sseStep p st resp).increments.flatten = accText (sseStep p st resp) ∧
    st.delivered ≤ (sseStep p st resp).delivered := by
  unfold sseStep
  try dsimp only
  split
  · exact procParts_inv p _ _ h1 h2
  · exact procParts_inv p _ _ h1 h2

theorem gemLoop_inv (rest : List Char) (st : SseState) (i : Nat)
    (objAcc : Option (List Char)) (bc : Nat) (instr esc : Bool)
    (h1 : st.delivered = (accText st).length)
    (h2 : st.increments.flatten = accText st) :
    (gemLoop st rest i objAcc bc instr esc).delivered
      = (accText (gemLoop st rest i objAcc bc instr esc)).length ∧
    (gemLoop st rest i objAcc bc instr esc).increments.flatten
      = accText (gemLoop st rest i objAcc bc instr esc) ∧
    st.delivered ≤ (gemLoop st rest i objAcc bc instr esc).delivered := by
  induction rest generalizing st i objAcc bc instr esc with
  | nil => exact ⟨h1, h2, Nat.le_refl _⟩
  | cons c r ih =>
    cases objAcc with
    | none =>
      unfold gemLoop
      split <;> exact ih _ _ _ _ _ _ h1 h2
    | some acc =>
      unfold gemLoop
      try dsimp only
      repeat' split
      all_goals
        first
          | exact ih _ _ _ _ _ _ h1 h2
          | (have key := pushDeltaGem_inv st _
               (extractedDelta_ne _ .gemini _ (by assumption)) h1 h2
             refine ⟨(ih _ _ _ _ _ _ ?ha ?hb).1, (ih _ _ _ _ _ _ ?ha ?hb).2.1,
               Nat.le_trans key.2.2 (ih _ _ _ _ _ _ ?ha ?hb).2.2⟩
             case ha => exact key.1
             case hb => exact key.2.1)

theorem progressStep_inv (p : ProviderType) (st : SseState) (ev : Event)
    (h1 : st.delivered = (accText st).length)
    (h2 : st.increments.flatten = accText st) :
    (progressStep p st ev).delivered = (accText (progressStep p st ev)).length ∧
    (progressStep p st ev).increments.flatten = accText (progressStep p st ev) ∧
    st.delivered ≤ (progressStep p st ev).delivered := by
  unfold progressStep
  split
  · split
    · exact ⟨h1, h2, Nat.le_refl _⟩
    · exact ⟨h1, h2, Nat.le_refl _⟩
  · split
    · split
      · exact gemLoop_inv _ _ _ _ _ _ _ h1 h2
      · exact sseStep_inv p st ev.resp h1 h2
    · exact ⟨h1, h2, Nat.le_refl _⟩

theorem runEvents_inv (p : ProviderType) (es : List Event) (st : SseState)
    (h1 : st.delivered = (accText st).length)
    (h2 : st.increments.flatten = accText st) :
    (runEvents p st es).delivered = (accText (runEvents p st es)).length ∧
    (runEvents p st es).increments.flatten = accText (runEvents p st es) ∧
    st.delivered ≤ (runEvents p st es).delivered := by
  induction es generalizing st with
  | nil => exact ⟨h1, h2, Nat.le_refl _⟩
  | cons e rest ih =>
    unfold runEvents
    try dsimp only
    have hs := progressStep_inv p st e h1 h2
    split
    · exact hs
    · have hr := ih _ hs.1 hs.2.1
      exact ⟨hr.1, hr.2.1, Nat.le_trans hs.2.2 hr.2.2⟩

/-- `runEvents` over an arbitrary split of the event list. -/
theorem runEvents_append_cases (p : ProviderType) (a b : List Event)
    (st : SseState) (h0 : st.abortedDueToError = false) :
    runEvents p st (a ++ b)
      = if (runEvents p st a).abortedDueToError then runEvents p st a
        else runEvents p (runEvents p st a) b := by
  induction a generalizing st with
  | nil =>
    show runEvents p st b = if st.abortedDueToError then st else runEvents p st b
    rw [h0]
    simp
  | cons e a' ih =>
    show (let st1 := progressStep p st e;
      if st1.abortedDueToError then st1 else runEvents p st1 (a' ++ b)) = _
    try dsimp only
    by_cases hab : (progressStep p st e).abortedDueToError = true
    · rw [if_pos hab]
      rw [show runEvents p st (e :: a')
        = (let st1 := progressStep p st e;
           if st1.abortedDueToError then st1 else runEvents p st1 a') from rfl]
      try dsimp only
      rw [if_pos hab, if_pos hab]
    · rw [if_neg hab]
      rw [show runEvents p st (e :: a')
        = (let st1 := progressStep p st e;
           if st1.abortedDueToError then st1 else runEvents p st1 a') from rfl]
      try dsimp only
      rw [if_neg hab]
      exact ih _ (by simpa using hab)

/-- C2: throughout one streaming `generateSummary` call, for both the
SSE and the Gemini decoding modes: the delivered-length counter always
equals (in particular never exceeds) the length of the accumulated
text, it is monotonically non-decreasing along the run, and the
concatenation, in order, of all increments handed to the sink equals
the accumulated text exactly once — nothing is ever re-delivered. -/
theorem increment_delivery_invariant (p : ProviderType) (events : List Event) :
    (runEvents p initState events).increments.flatten
      = accText (runEvents p initState events) ∧
    (runEvents p initState events).delivered
      = (accText (runEvents p initState events)).length ∧
    (∀ es', es' <+: events →
      (runEvents p initState es').delivered
        = (accText (runEvents p initState es')).length ∧
      (runEvents p initState es').delivered
        ≤ (runEvents p initState events).delivered) := by
  have hinit := runEvents_inv p events initState rfl rfl
  refine ⟨hinit.2.1, hinit.1, ?_⟩
  intro es' hpre
  obtain ⟨rest, hrest⟩ := hpre
  have hpre' := runEvents_inv p es' initState rfl rfl
  refine ⟨hpre'.1, ?_⟩
  subst hrest
  rw [runEvents_append_cases p es' rest initState rfl]
  split
  · exact Nat.le_refl _
  · exact (runEvents_inv p rest (runEvents p initState es') hpre'.1
      hpre'.2.1).2.2

/-- C2 (witness): the invariant at a concrete two-event run. -/
theorem increment_delivery_invariant_witness :
    (runEvents .openai initState
        [⟨200, cs "data: \x7b\"choices\":[\x7b\"delta\":\x7b\"content\":\"Hel\"\x7d\x7d]\x7d\n"⟩]).delivered
      = (accText (runEvents .openai initState
        [⟨200, cs "data: \x7b\"choices\":[\x7b\"delta\":\x7b\"content\":\"Hel\"\x7d\x7d]\x7d\n"⟩])).length ∧
    (runEvents .openai initState
        [⟨200, cs "data: \x7b\"choices\":[\x7b\"delta\":\x7b\"content\":\"Hel\"\x7d\x7d]\x7d\n"⟩]).delivered
      ≤ (runEvents .openai initState
        [⟨200, cs "data: \x7b\"choices\":[\x7b\"delta\":\x7b\"content\":\"Hel\"\x7d\x7d]\x7d\n"⟩,
         ⟨200, cs "data: \x7b\"choices\":[\x7b\"delta\":\x7b\"content\":\"Hel\"\x7d\x7d]\x7d\ndata: \x7b\"choices\":[\x7b\"delta\":\x7b\"content\":\"lo\"\x7d\x7d]\x7d\n"⟩]).delivered :=
  (increment_delivery_invariant .openai
    [⟨200, cs "data: \x7b\"choices\":[\x7b\"delta\":\x7b\"content\":\"Hel\"\x7d\x7d]\x7d\n"⟩,
     ⟨200, cs "data: \x7b\"choices\":[\x7b\"delta\":\x7b\"content\":\"Hel\"\x7d\x7d]\x7d\ndata: \x7b\"choices\":[\x7b\"delta\":\x7b\"content\":\"lo\"\x7d\x7d]\x7d\n"⟩]).2.2
    [⟨200, cs "data: \x7b\"choices\":[\x7b\"delta\":\x7b\"content\":\"Hel\"\x7d\x7d]\x7d\n"⟩]
    ⟨[⟨200, cs "data: \x7b\"choices\":[\x7b\"delta\":\x7b\"content\":\"Hel\"\x7d\x7d]\x7d\ndata: \x7b\"choices\":[\x7b\"delta\":\x7b\"content\":\"lo\"\x7d\x7d]\x7d\n"⟩], rfl⟩

/-! ### Line-splitting lemmas -/

theorem linesFrag_append (a b : List Char) :
    linesFrag (a ++ b) =
      ((linesFrag a).1 ++ (joinLF (linesFrag a).2 (linesFrag b)).1,
       (joinLF (linesFrag a).2 (linesFrag b)).2) := by
  induction a with
  | nil =>
    cases hb : (linesFrag b).1 <;> simp [joinLF, hb]
    · exact Prod.ext hb rfl
    · rename_i l ls
      exact Prod.ext hb rfl
  | cons c r ih =>
    by_cases hc : c = '\n'
    · subst hc
      simp [linesFrag, List.append_eq, ih]
    · cases h1 : (linesFrag r).1 with
      | nil =>
        cases hb : (linesFrag b).1 with
        | nil =>
          simp [List.cons_append, linesFrag, hc, ih, h1, joinLF, hb]
        | cons m ms =>
          simp [List.cons_append, linesFrag, hc, ih, h1, joinLF, hb]
      | cons l ls =>
        simp [List.cons_append, linesFrag, hc, ih, h1, joinLF]

theorem linesFrag_no_lf (x : List Char) (h : '\n' ∉ x) :
    linesFrag x = ([], x) := by
  induction x with
  | nil => rfl
  | cons c r ih =>
    have hc : c ≠ '\n' := fun hh => h (hh ▸ List.mem_cons_self c r)
    have hr : '\n' ∉ r := fun hh => h (List.mem_cons_of_mem c hh)
    simp [linesFrag, hc, ih hr]

theorem frag_no_lf (s : List Char) : '\n' ∉ (linesFrag s).2 := by
  induction s with
  | nil => simp [linesFrag]
  | cons c r ih =>
    by_cases hc : c = '\n'
    · subst hc
      simp [linesFrag, ih]
    · cases h1 : (linesFrag r).1 with
      | nil =>
        simp only [linesFrag, if_neg hc, h1]
        intro hm
        rcases List.mem_cons.mp hm with h | h
        · exact hc h.symm
        · exact ih h
      | cons l ls =>
        simp only [linesFrag, if_neg hc, h1]
        exact ih

theorem frag_subset (s : List Char) (c : Char) (h : c ∈ (linesFrag s).2) :
    c ∈ s := by
  induction s with
  | nil => simp [linesFrag] at h
  | cons x r ih =>
    by_cases hx : x = '\n'
    · subst hx
      simp only [linesFrag, if_pos rfl] at h
      exact List.mem_cons_of_mem _ (ih h)
    · cases h1 : (linesFrag r).1 with
      | nil =>
        simp only [linesFrag, if_neg hx, h1] at h
        rcases List.mem_cons.mp h with h | h
        · exact h ▸ List.mem_cons_self x r
        · exact List.mem_cons_of_mem _ (ih h)
      | cons l ls =>
        simp only [linesFrag, if_neg hx, h1] at h
        exact List.mem_cons_of_mem _ (ih h)

theorem frag_nil_of_ends_lf (s : List Char) (h : s.getLast? = some '\n') :
    (linesFrag s).2 = [] := by
  have hne : s ≠ [] := by
    intro hh
    subst hh
    cases h
  have hs : s = s.dropLast ++ [s.getLast hne] := (List.dropLast_append_getLast hne).symm
  have hl : s.getLast hne = '\n' := by
    have := List.getLast?_eq_getLast s hne
    rw [this] at h
    exact Option.some_injective _ h
  rw [hs, hl, linesFrag_append]
  simp [linesFrag, joinLF]

theorem splitRN_lines (s : List Char) (h : '\r' ∉ s) :
    splitRN s = (linesFrag s).1 ++ [(linesFrag s).2] := by
  induction s with
  | nil => rfl
  | cons c r ih =>
    have hc : c ≠ '\r' := fun hh => h (hh ▸ List.mem_cons_self c r)
    have hr : '\r' ∉ r := fun hh => h (List.mem_cons_of_mem c hh)
    by_cases hn : c = '\n'
    · subst hn
      simp [splitRN, linesFrag, ih hr]
    · have hsr : splitRN (c :: r) = consHead c (splitRN r) := by
        rw [splitRN.eq_def]
        split
        · rename_i heq
          cases heq
        · rename_i heq
          injection heq with ha hb
          exact absurd ha hn
        · rename_i heq
          injection heq with ha hb
          exact absurd ha hc
        · rename_i heq
          injection heq with ha hb
          exact absurd ha hc
        · rename_i heq
          injection heq with ha hb
          subst ha
          subst hb
          rfl
      rw [hsr, ih hr]
      cases h1 : (linesFrag r).1 with
      | nil =>
        simp [linesFrag, hn, h1, consHead]
      | cons l ls =>
        simp [linesFrag, hn, h1, consHead]

/-! ### Eliminating the early return on `[DONE]` -/

theorem procJsonStr_delta (p : ProviderType) (st : SseState) (j : List Char) :
    procJsonStr p st j =
      match jsonStrDelta p j with
      | some d => pushDeltaSSE st d
      | none => st := by
  unfold procJsonStr jsonStrDelta
  split
  · rfl
  · split
    · rfl
    · split <;> rfl

theorem set_sc_self (st : SseState) (h : st.streamComplete = true) :
    { st with streamComplete := true } = st := by
  cases st
  simp_all

theorem procLine_delta_none (p : ProviderType) (st : SseState)
    (raw : List Char) (h : lineDelta p raw = none) :
    procLine p st raw =
      if isDoneLine raw then { st with streamComplete := true } else st := by
  by_cases hpre : (cs "data: ").isPrefixOf raw
  · by_cases hdone : jsTrim (raw.drop 6) = cs "[DONE]"
    · have hd : isDoneLine raw = true := by
        unfold isDoneLine
        rw [if_pos hpre, if_pos hdone]
      rw [hd]
      unfold procLine
      rw [if_pos hpre]
      try dsimp only
      rw [if_pos hdone]
      simp
    · have hd : isDoneLine raw = false := by
        unfold isDoneLine
        rw [if_pos hpre, if_neg hdone]
      rw [hd]
      unfold procLine
      rw [if_pos hpre]
      try dsimp only
      rw [if_neg hdone, procJsonStr_delta]
      unfold lineDelta at h
      rw [if_pos hpre] at h
      try dsimp only at h
      rw [if_neg hdone] at h
      rw [h]
      simp
  · have hd : isDoneLine raw = false := by
      unfold isDoneLine
      rw [if_neg hpre]
    rw [hd]
    unfold procLine
    rw [if_neg hpre]
    unfold lineDelta at h
    rw [if_neg hpre] at h
    by_cases hb : (cs "\x7b").isPrefixOf (jsTrim raw)
    · rw [if_pos hb] at h ⊢
      rw [procJsonStr_delta, h]
      simp
    · rw [if_neg hb]
      simp

theorem pureFold_inert (p : ProviderType) (ls : List (List Char))
    (st : SseState) (hsc : st.streamComplete = true)
    (h : ∀ l ∈ ls, (lineDelta p l).isNone = true) :
    pureFold p st ls = st := by
  induction ls generalizing st with
  | nil => rfl
  | cons raw rest ih =>
    have hraw : lineDelta p raw = none :=
      Option.isNone_iff_eq_none.mp (h raw (by simp))
    show pureFold p (procLine p st raw) rest = st
    rw [procLine_delta_none p st raw hraw]
    split
    · rw [set_sc_self st hsc]
      exact ih st hsc (fun l hl => h l (by simp [hl]))
    · exact ih st hsc (fun l hl => h l (by simp [hl]))

theorem procParts_eq_pureFold (p : ProviderType) (parts : List (List Char))
    (st : SseState) (hdf : deltaFreeAfterDone p parts = true) :
    procParts p st parts = pureFold p st parts := by
  induction parts generalizing st with
  | nil => rfl
  | cons raw rest ih =>
    unfold procParts
    unfold deltaFreeAfterDone at hdf
    try dsimp only
    split
    · rename_i hpre
      split
      · rename_i hdone
        have hdl : isDoneLine raw = true := by
          unfold isDoneLine
          rw [if_pos hpre, if_pos hdone]
        rw [hdl, if_pos rfl] at hdf
        show _ = pureFold p (procLine p st raw) rest
        have hline : procLine p st raw = { st with streamComplete := true } := by
          unfold procLine
          rw [if_pos hpre]
          try dsimp only
          rw [if_pos hdone]
        rw [hline]
        rw [pureFold_inert p rest _ rfl
          (fun l hl => by
            have := List.all_eq_true.mp hdf l hl
            simpa using this)]
      · rename_i hdone
        have hdl : isDoneLine raw = false := by
          unfold isDoneLine
          rw [if_pos hpre, if_neg hdone]
        rw [hdl] at hdf
        simp only [Bool.false_eq_true, if_neg] at hdf
        show _ = pureFold p (procLine p st raw) rest
        have hline : procLine p st raw = procJsonStr p st (jsTrim (raw.drop 6)) := by
          unfold procLine
          rw [if_pos hpre]
          try dsimp only
          rw [if_neg hdone]
        rw [hline]
        exact ih _ hdf
    · rename_i hpre
      have hdl : isDoneLine raw = false := by
        unfold isDoneLine
        rw [if_neg hpre]
      rw [hdl] at hdf
      simp only [Bool.false_eq_true, if_neg] at hdf
      split
      · rename_i hb
        show _ = pureFold p (procLine p st raw) rest
        have hline : procLine p st raw = procJsonStr p st (jsTrim raw) := by
          unfold procLine
          rw [if_neg hpre, if_pos hb]
        rw [hline]
        exact ih _ hdf
      · rename_i hb
        show _ = pureFold p (procLine p st raw) rest
        have hline : procLine p st raw = st := by
          unfold procLine
          rw [if_neg hpre, if_neg hb]
        rw [hline]
        exact ih _ hdf

/-! ### Threading `processedLength`/`partialLine` through the fold -/

theorem pushDeltaSSE_comm (st : SseState) (d : List Char) (n : Nat)
    (f : List Char) :
    pushDeltaSSE { st with processedLength := n, partialLine := f } d
      = { pushDeltaSSE st d with processedLength := n, partialLine := f } := by
  unfold pushDeltaSSE
  try dsimp only
  split
  · rfl
  · rfl

theorem procLine_comm (p : ProviderType) (st : SseState) (raw : List Char)
    (n : Nat) (f : List Char) :
    procLine p { st with processedLength := n, partialLine := f } raw
      = { procLine p st raw with processedLength := n, partialLine := f } := by
  unfold procLine
  try dsimp only
  split
  · split
    · rfl
    · simp only [procJsonStr_delta]
      split
      · rw [pushDeltaSSE_comm]
      · rfl
  · split
    · simp only [procJsonStr_delta]
      split
      · rw [pushDeltaSSE_comm]
      · rfl
    · rfl

theorem pureFold_comm (p : ProviderType) (ls : List (List Char))
    (st : SseState) (n : Nat) (f : List Char) :
    pureFold p { st with processedLength := n, partialLine := f } ls
      = { pureFold p st ls with processedLength := n, partialLine := f } := by
  induction ls generalizing st with
  | nil => rfl
  | cons raw rest ih =>
    show pureFold p (procLine p { st with processedLength := n, partialLine := f } raw) rest = _
    rw [procLine_comm]
    exact ih (procLine p st raw)

theorem procLine_frame (p : ProviderType) (st : SseState) (raw : List Char) :
    (procLine p st raw).abortedDueToError = st.abortedDueToError := by
  unfold procLine
  split
  · try dsimp only
    split
    · rfl
    · exact (procJsonStr_frame p st _).1
  · split
    · exact (procJsonStr_frame p st _).1
    · rfl

theorem pureFold_frame (p : ProviderType) (ls : List (List Char))
    (st : SseState) :
    (pureFold p st ls).abortedDueToError = st.abortedDueToError := by
  induction ls generalizing st with
  | nil => rfl
  | cons raw rest ih =>
    show (pureFold p (procLine p st raw) rest).abortedDueToError = _
    rw [ih, procLine_frame]

/-! ### The SSE event step in terms of `linesFrag` -/

theorem getLast?_mem_of (s : List Char) (c : Char) (h : s.getLast? = some c) :
    c ∈ s := by
  have hne : s ≠ [] := by
    intro hh
    subst hh
    cases h
  have := List.getLast?_eq_getLast s hne
  rw [this] at h
  have hc : s.getLast hne = c := Option.some_injective _ h
  exact hc ▸ List.getLast_mem hne

theorem sseStep_lines (p : ProviderType) (st : SseState) (resp : List Char)
    (hr : '\r' ∉ st.partialLine ++ resp.drop st.processedLength) :
    sseStep p st resp =
      procParts p
        { st with
          processedLength := resp.length
          partialLine := (linesFrag (st.partialLine ++ resp.drop st.processedLength)).2 }
        (linesFrag (st.partialLine ++ resp.drop st.processedLength)).1 := by
  unfold sseStep
  try dsimp only
  rw [splitRN_lines _ hr]
  by_cases hlast : (st.partialLine ++ resp.drop st.processedLength).getLast? = some '\n'
  · rw [if_neg (by
      intro hand
      exact hand.1 hlast)]
    have hfrag := frag_nil_of_ends_lf _ hlast
    rw [List.getLast?_concat, hfrag]
    rw [if_pos rfl, List.dropLast_concat]
  · have hlastr : (st.partialLine ++ resp.drop st.processedLength).getLast? ≠ some '\r' := by
      intro hh
      exact hr (getLast?_mem_of _ _ hh)
    rw [if_pos ⟨hlast, hlastr⟩, List.dropLast_concat, List.getLast?_concat]
    rfl

/-! ### The side condition is closed under segments -/

theorem deltaFree_of_all (p : ProviderType) (ls : List (List Char))
    (h : ∀ l ∈ ls, (lineDelta p l).isNone = true) :
    deltaFreeAfterDone p ls = true := by
  induction ls with
  | nil => rfl
  | cons raw rest ih =>
    unfold deltaFreeAfterDone
    split
    · exact List.all_eq_true.mpr (fun l hl => h l (by simp [hl]))
    · exact ih (fun l hl => h l (by simp [hl]))

theorem deltaFree_append_right (p : ProviderType) (u v : List (List Char))
    (h : deltaFreeAfterDone p (u ++ v) = true) :
    deltaFreeAfterDone p v = true := by
  induction u with
  | nil => exact h
  | cons x u' ih =>
    rw [List.cons_append] at h
    unfold deltaFreeAfterDone at h
    split at h
    · have hall : ∀ l ∈ u' ++ v, (lineDelta p l).isNone = true :=
        List.all_eq_true.mp h
      exact deltaFree_of_all p v
        (fun l hl => hall l (List.mem_append_right u' hl))
    · exact ih h

theorem deltaFree_append_left (p : ProviderType) (u v : List (List Char))
    (h : deltaFreeAfterDone p (u ++ v) = true) :
    deltaFreeAfterDone p u = true := by
  induction u with
  | nil => rfl
  | cons x u' ih =>
    rw [List.cons_append] at h
    unfold deltaFreeAfterDone at h ⊢
    split at h
    · rename_i hd
      rw [if_pos hd]
      have hall : ∀ l ∈ u' ++ v, (lineDelta p l).isNone = true :=
        List.all_eq_true.mp h
      exact List.all_eq_true.mpr
        (fun l hl => hall l (List.mem_append_left v hl))
    · rename_i hd
      rw [if_neg hd]
      exact ih h

/-! ### Chunk-boundary independence -/

theorem canonSt_nil (p : ProviderType) : canonSt p [] = initState := rfl

theorem canonSt_not_aborted (p : ProviderType) (B : List Char) :
    (canonSt p B).abortedDueToError = false := by
  show (pureFold p initState (linesFrag B).1).abortedDueToError = false
  rw [pureFold_frame]
  rfl

/-- One 200-status progress event carries the canonical state for a
prefix `B` to the canonical state for the grown buffer `B'`. -/
theorem progressStep_canon (p : ProviderType) (hp : p ≠ .gemini)
    (B B' : List Char) (hpre : B <+: B') (hr : '\r' ∉ B')
    (hdf : deltaFreeAfterDone p (linesFrag B').1 = true) :
    progressStep p (canonSt p B) ⟨200, B'⟩ = canonSt p B' := by
  obtain ⟨t, ht⟩ := hpre
  unfold progressStep
  rw [show (Event.mk 200 B').status = 200 from rfl,
      show (Event.mk 200 B').resp = B' from rfl,
      if_neg (show ¬((400:Nat) ≤ 200) by omega)]
  by_cases hlen : B'.length > (canonSt p B).processedLength
  · rw [if_pos hlen, if_neg hp]
    have hdropB : B'.drop B.length = t := by
      rw [← ht, List.drop_left]
    have hslice : (canonSt p B).partialLine
        ++ B'.drop (canonSt p B).processedLength = (linesFrag B).2 ++ t := by
      show (linesFrag B).2 ++ B'.drop B.length = _
      rw [hdropB]
    have hrs : '\r' ∉ (canonSt p B).partialLine
        ++ B'.drop (canonSt p B).processedLength := by
      rw [hslice]
      intro hm
      rcases List.mem_append.mp hm with hm | hm
      · exact hr (ht ▸ List.mem_append_left t (frag_subset B '\r' hm))
      · exact hr (ht ▸ List.mem_append_right B hm)
    rw [sseStep_lines p _ B' hrs, hslice]
    have hfragB := linesFrag_no_lf (linesFrag B).2 (frag_no_lf B)
    have hA : linesFrag ((linesFrag B).2 ++ t)
        = ((joinLF (linesFrag B).2 (linesFrag t)).1,
           (joinLF (linesFrag B).2 (linesFrag t)).2) := by
      rw [linesFrag_append, hfragB]
      simp
    have hB1 : (linesFrag B').1
        = (linesFrag B).1 ++ (joinLF (linesFrag B).2 (linesFrag t)).1 := by
      rw [← ht, linesFrag_append]
    have hB2 : (linesFrag B').2 = (joinLF (linesFrag B).2 (linesFrag t)).2 := by
      rw [← ht, linesFrag_append]
    have hbatch : deltaFreeAfterDone p
        (joinLF (linesFrag B).2 (linesFrag t)).1 = true := by
      apply deltaFree_append_right p (linesFrag B).1
      rw [← hB1]
      exact hdf
    rw [hA]
    try dsimp only
    rw [procParts_eq_pureFold p _ _ hbatch]
    have hcomm := pureFold_comm p (joinLF (linesFrag B).2 (linesFrag t)).1
      (pureFold p initState (linesFrag B).1) B'.length
      (joinLF (linesFrag B).2 (linesFrag t)).2
    have hfold : pureFold p (pureFold p initState (linesFrag B).1)
        (joinLF (linesFrag B).2 (linesFrag t)).1
        = pureFold p initState ((linesFrag B).1
            ++ (joinLF (linesFrag B).2 (linesFrag t)).1) :=
      (List.foldl_append ..).symm
    calc pureFold p
          { canonSt p B with
            processedLength := B'.length
            partialLine := (joinLF (linesFrag B).2 (linesFrag t)).2 }
          (joinLF (linesFrag B).2 (linesFrag t)).1
        = pureFold p
            { pureFold p initState (linesFrag B).1 with
              processedLength := B'.length
              partialLine := (joinLF (linesFrag B).2 (linesFrag t)).2 }
            (joinLF (linesFrag B).2 (linesFrag t)).1 := rfl
      _ = { pureFold p (pureFold p initState (linesFrag B).1)
              (joinLF (linesFrag B).2 (linesFrag t)).1 with
            processedLength := B'.length
            partialLine := (joinLF (linesFrag B).2 (linesFrag t)).2 } := hcomm
      _ = canonSt p B' := by
            rw [hfold, ← hB1]
            unfold canonSt
            rw [hB2]
  · rw [if_neg hlen]
    have hle : B.length ≤ B'.length := List.IsPrefix.length_le ⟨t, ht⟩
    have hlen' : B'.length = B.length := by
      have : ¬ B'.length > B.length := hlen
      omega
    have hBB : B = B' := List.IsPrefix.eq_of_length ⟨t, ht⟩ hlen'.symm
    rw [hBB]

theorem chainPrefix_cons (a b : List Char) (r : List (List Char))
    (h : chainPrefix (a :: b :: r) = true) :
    a <+: b ∧ chainPrefix (b :: r) = true := by
  unfold chainPrefix at h
  simp only [Bool.and_eq_true] at h
  exact ⟨List.isPrefixOf_iff_prefix.mp h.1, h.2⟩

theorem chain_last (xs : List (List Char)) (x : List Char) (L : List Char)
    (hc : chainPrefix (x :: xs) = true) (hl : (x :: xs).getLast? = some L) :
    x <+: L := by
  induction xs generalizing x with
  | nil =>
    cases hl
    exact List.prefix_refl x
  | cons y ys ih =>
    have hcb := chainPrefix_cons x y ys hc
    have hl' : (y :: ys).getLast? = some L := by
      rw [← hl]
      exact (List.getLast?_cons_cons ..).symm
    exact List.IsPrefix.trans hcb.1 (ih y hcb.2 hl')

theorem runEvents_canon (p : ProviderType) (hp : p ≠ .gemini) (L : List Char)
    (hr : '\r' ∉ L) (hdf : deltaFreeAfterDone p (linesFrag L).1 = true)
    (es : List (List Char)) :
    ∀ B : List Char, chainPrefix (B :: es) = true →
      (B :: es).getLast? = some L →
      runEvents p (canonSt p B) (es.map (fun s => Event.mk 200 s))
        = canonSt p L := by
  induction es with
  | nil =>
    intro B hc hl
    cases hl
    rfl
  | cons s es' ih =>
    intro B hc hl
    have hcb := chainPrefix_cons B s es' hc
    have hl' : (s :: es').getLast? = some L := by
      rw [← hl]
      exact (List.getLast?_cons_cons ..).symm
    have hsL : s <+: L := chain_last es' s L hcb.2 hl'
    have hrs : '\r' ∉ s := fun hm => hr (hsL.subset hm)
    have hdfs : deltaFreeAfterDone p (linesFrag s).1 = true := by
      obtain ⟨u, hu⟩ := hsL
      apply deltaFree_append_left p (linesFrag s).1
        (joinLF (linesFrag s).2 (linesFrag u)).1
      have hsplit : (linesFrag L).1
          = (linesFrag s).1 ++ (joinLF (linesFrag s).2 (linesFrag u)).1 := by
        rw [← hu, linesFrag_append]
      rw [← hsplit]
      exact hdf
    rw [show runEvents p (canonSt p B)
        ((s :: es').map (fun s => Event.mk 200 s))
      = (let st1 := progressStep p (canonSt p B) (Event.mk 200 s);
         if st1.abortedDueToError then st1
         else runEvents p st1 (es'.map (fun s => Event.mk 200 s))) from rfl]
    try dsimp only
    rw [progressStep_canon p hp B s hcb.1 hrs hdfs,
        if_neg (by rw [canonSt_not_aborted]; simp)]
    exact ih s hcb.2 hl'

/-- C1 (amended): chunk-boundary independence of the SSE-mode decoder
for the OpenAI/DeepSeek/Azure/Claude/Custom providers, for every
response buffer that contains no carriage-return character and in which
no complete line after the first `data: [DONE]` line contributes a
delta: for every chain of growing snapshots of the buffer, the final
decoder state — in particular the final assembled text — is the same
as when the whole buffer is delivered in one snapshot. -/
theorem sse_chunk_boundary_independence (p : ProviderType)
    (hp : p ≠ ProviderType.gemini) (B : List Char) (es : List (List Char))
    (hchain : chainPrefix es = true) (hlast : es.getLast? = some B)
    (hr : '\r' ∉ B) (hdf : deltaFreeAfterDone p (linesFrag B).1 = true) :
    accText (runEvents p initState (es.map (fun s => Event.mk 200 s)))
      = accText (runEvents p initState [Event.mk 200 B]) := by
  have hchain0 : chainPrefix ([] :: es) = true := by
    cases es with
    | nil => rfl
    | cons x xs =>
      show (List.isPrefixOf [] x && chainPrefix (x :: xs)) = true
      simpa using hchain
  have hlast0 : ([] :: es).getLast? = some B := by
    cases es with
    | nil => cases hlast
    | cons x xs =>
      rw [List.getLast?_cons_cons]
      exact hlast
  have h1 := runEvents_canon p hp B hr hdf es [] hchain0 hlast0
  have h2 := runEvents_canon p hp B hr hdf [B] []
    (show (List.isPrefixOf [] B && true) = true by simp) rfl
  rw [canonSt_nil] at h1 h2
  rw [h1]
  rw [show runEvents p initState [Event.mk 200 B]
    = runEvents p initState ([B].map (fun s => Event.mk 200 s)) from rfl, h2]

/-- C1 (counterexample to the claim as stated): chunk boundaries are
*not* always irrelevant.  (i) A delta frame after `data: [DONE]` in the
same snapshot is discarded by the early return, but contributes when it
arrives in a later snapshot.  (ii) A lone carriage return makes the
carry-over logic treat an unterminated line as complete, so a chunk
boundary at the CR yields a delta that one-shot delivery never
produces. -/
theorem sse_chunk_boundary_dependence :
    chainPrefix [cs "data: [DONE]\n",
      cs "data: [DONE]\ndata: \x7b\"choices\":[\x7b\"delta\":\x7b\"content\":\"A\"\x7d\x7d]\x7d\n"]
      = true ∧
    accText (runEvents .openai initState
        [⟨200, cs "data: [DONE]\ndata: \x7b\"choices\":[\x7b\"delta\":\x7b\"content\":\"A\"\x7d\x7d]\x7d\n"⟩])
      ≠ accText (runEvents .openai initState
        [⟨200, cs "data: [DONE]\n"⟩,
         ⟨200, cs "data: [DONE]\ndata: \x7b\"choices\":[\x7b\"delta\":\x7b\"content\":\"A\"\x7d\x7d]\x7d\n"⟩]) ∧
    chainPrefix [cs "data: \x7b\"choices\":[\x7b\"delta\":\x7b\"content\":\"A\"\x7d\x7d]\x7d\r",
      cs "data: \x7b\"choices\":[\x7b\"delta\":\x7b\"content\":\"A\"\x7d\x7d]\x7d\rX\n"] = true ∧
    accText (runEvents .openai initState
        [⟨200, cs "data: \x7b\"choices\":[\x7b\"delta\":\x7b\"content\":\"A\"\x7d\x7d]\x7d\rX\n"⟩])
      ≠ accText (runEvents .openai initState
        [⟨200, cs "data: \x7b\"choices\":[\x7b\"delta\":\x7b\"content\":\"A\"\x7d\x7d]\x7d\r"⟩,
         ⟨200, cs "data: \x7b\"choices\":[\x7b\"delta\":\x7b\"content\":\"A\"\x7d\x7d]\x7d\rX\n"⟩]) := by
  exact ⟨by decide, by decide, by decide, by decide⟩

/-- C1 (witness): a line-chunked delivery of a well-formed LF-only
stream assembles the same text as one-shot delivery. -/
theorem sse_chunk_boundary_independence_witness :
    accText (runEvents .openai initState
        ([cs "data: \x7b\"choices\":[\x7b\"delta\":\x7b\"content\":\"Hel\"\x7d\x7d]\x7d\n",
          cs "data: \x7b\"choices\":[\x7b\"delta\":\x7b\"content\":\"Hel\"\x7d\x7d]\x7d\ndata: [DONE]\n"].map
          (fun s => Event.mk 200 s)))
      = accText (runEvents .openai initState
          [Event.mk 200
            (cs "data: \x7b\"choices\":[\x7b\"delta\":\x7b\"content\":\"Hel\"\x7d\x7d]\x7d\ndata: [DONE]\n")]) :=
  sse_chunk_boundary_independence .openai (by decide)
    (cs "data: \x7b\"choices\":[\x7b\"delta\":\x7b\"content\":\"Hel\"\x7d\x7d]\x7d\ndata: [DONE]\n")
    [cs "data: \x7b\"choices\":[\x7b\"delta\":\x7b\"content\":\"Hel\"\x7d\x7d]\x7d\n",
     cs "data: \x7b\"choices\":[\x7b\"delta\":\x7b\"content\":\"Hel\"\x7d\x7d]\x7d\ndata: [DONE]\n"]
    (by decide) (by decide) (by decide) (by decide)
